import Mathlib

/-!
# gotracks: outbox consumer protocol, broadcast hub and live connection

A shallow embedding of `ep_pub.go` (`checkOutbox`, `getUserID`, enrichment, the
`/pub` handler), `otjson.go` (record accessors and decoding), `main.go`
(`httpError`), `ep_last_location.go` (`lastLocation`) and `ep_ws_last.go`
(`liveLocations`, the `/ws/last` handler and its loop).

The relational store is a record of tables, each table the list of its rows in
the order a scan yields them.  External libraries (JSON, geohash, plus codes,
time zones, time formatting) are fields of `Libs`.  Store statements that may
fail take the failure from a fault record, so that every error branch of the
source is reachable in the model.  `Time.Format` of the Go standard library is
also given as a function (`goFormatUTC`) for the layouts the source uses.
-/

namespace Gotracks

/-! ## SQL values -/

/-- A value as SQLite stores it, in one of its five storage classes. -/
inductive SqlValue where
  | null
  | integer (i : Int)
  | real (r : ℚ)
  | text (s : String)
  | blob (b : List UInt8)
deriving DecidableEq

/-- The decimal digit of `n % 10`. -/
def digitChar (n : Nat) : Char := Char.ofNat (48 + n % 10)

/-- The decimal digits of `u`, padded with zeros on the left to `width`. -/
def digitsAux : Nat → Nat → Nat → List Char
  | 0, _, _ => []
  | fuel + 1, width, u =>
    if u < 10 then List.replicate (width - 1) '0' ++ [digitChar u]
    else digitsAux fuel (width - 1) (u / 10) ++ [digitChar u]

/-- The function `appendInt` of package `time`: a sign if negative, then the
decimal digits padded with zeros to `width` (20 digits hold every `uint`). -/
def appendInt (x : Int) (width : Nat) : List Char :=
  (if x < 0 then ['-'] else []) ++ digitsAux 20 width x.natAbs

/-- The value of `strftime('%s', 'now')` at the store clock `now` (epoch
seconds): the decimal digits of the clock, a TEXT. -/
def strftimeEpoch (now : Int) : SqlValue :=
  .text (String.mk (appendInt now 1))

/-- The function `COALESCE(x, y)`. -/
def sqlCoalesce (x y : SqlValue) : SqlValue :=
  match x with
  | .null => y
  | v => v

/-- Whether the bytes `x` come before the bytes `y` in the order of `memcmp`,
a proper prefix coming first. -/
def bytesLt : List UInt8 → List UInt8 → Bool
  | [], [] => false
  | [], _ :: _ => true
  | _ :: _, [] => false
  | a :: x, b :: y => decide (a.toNat < b.toNat) || (a == b && bytesLt x y)

/-- Whether the text `x` comes before the text `y` under the collation `BINARY`:
the order of `memcmp` on the UTF-8 encodings, which is the order of the code
points, a proper prefix coming first. -/
def charsLt : List Char → List Char → Bool
  | [], [] => false
  | [], _ :: _ => true
  | _ :: _, [] => false
  | a :: x, b :: y => decide (a.toNat < b.toNat) || (a == b && charsLt x y)

/-- The comparison `a > b` of two expressions that have no column affinity, as
a `WHERE` clause reads it: a comparison with `NULL` selects nothing; numbers
are compared as numbers, texts byte by byte, blobs byte by byte; and across
storage classes every number is less than every text and every text less than
every blob. -/
def sqlGt (a b : SqlValue) : Bool :=
  match a, b with
  | .null, _ => false
  | _, .null => false
  | .integer x, .integer y => decide (y < x)
  | .integer x, .real y => decide (y < (x : ℚ))
  | .real x, .integer y => decide ((y : ℚ) < x)
  | .real x, .real y => decide (y < x)
  | .text x, .text y => charsLt y.toList x.toList
  | .blob x, .blob y => bytesLt y x
  | .integer _, _ => false
  | .real _, _ => false
  | .text _, .blob _ => false
  | .text _, _ => true
  | .blob _, _ => true

/-! ## Store -/

/-- A row of `cmd_outbox`: `id`, `user`, `device`, `data`, `when_expires`; the
schema is not among the sources, so `when_expires` is whatever value the row
stores (`NULL` for no expiry). -/
structure OutboxRow where
  id : Int
  user : String
  device : String
  data : String
  when_expires : SqlValue
deriving DecidableEq

/-- A row of `cmd_outbox_consumer_idx`: `user`, `device`, `last_outbox_id`. -/
structure ConsumerIdxRow where
  user : String
  device : String
  last_outbox_id : Int
deriving DecidableEq, Repr

/-- A row of `users`: `id`, `user`. -/
structure UserRow where
  id : Int
  user : String
deriving DecidableEq, Repr

/-- A row of `location_reports`: `id`, `user_id`, `device`, `data`. -/
structure LocationReportRow where
  id : Int
  user_id : Int
  device : String
  data : String
deriving DecidableEq, Repr

/-- The tables the `/pub` handler reads and writes. -/
structure Store where
  users : List UserRow
  location_reports : List LocationReportRow
  cmd_outbox : List OutboxRow
  cmd_outbox_consumer_idx : List ConsumerIdxRow
deriving DecidableEq

/-- Which of the four statements of `checkOutbox` fail when executed. -/
structure OutboxFaults where
  lastIdxQuery : Bool
  getOutboxQuery : Bool
  insertIdx : Bool
  updateIdx : Bool
deriving DecidableEq, Repr

/-- Every statement of `checkOutbox` succeeds. -/
def noOutboxFaults : OutboxFaults := ⟨false, false, false, false⟩

/-- Runs a statement as `sqlitex.Execute` does: the result function is called on
each result row in turn and the first error it returns aborts the statement. -/
def execRows {ρ σ : Type} (rows : List ρ) (resultFunc : σ → ρ → Except String σ)
    (init : σ) : Except String σ :=
  match rows with
  | [] => .ok init
  | r :: rest =>
    match resultFunc init r with
    | .error e => .error e
    | .ok st => execRows rest resultFunc st

/-! ## checkOutbox -/

/-- The condition `user = ?1 AND device = ?2` on a row of
`cmd_outbox_consumer_idx`. -/
def idxKeyIs (user device : String) (r : ConsumerIdxRow) : Bool :=
  r.user == user && r.device == device

/-- Rows of `SELECT last_outbox_id FROM cmd_outbox_consumer_idx
WHERE user = ?1 AND device = ?2`. -/
def lastIdxRows (s : Store) (user device : String) : List ConsumerIdxRow :=
  s.cmd_outbox_consumer_idx.filter (idxKeyIs user device)

/-- Result function of the offset lookup: the state is `(lastIdx, lastIdxSet)`;
the first row sets `lastIdx`, a second row is an error. -/
def lastIdxResultFunc (st : Int × Bool) (row : ConsumerIdxRow) : Except String (Int × Bool) :=
  if st.2 = false then .ok (row.last_outbox_id, true)
  else .error "expected only 1 result"

/-- The `WHERE` clause of `getOutboxQuery`:
`id > ?1 AND user = ?2 AND device IN (?3, '*')
 AND COALESCE(when_expires, (1 << 62)) > strftime('%s', 'now')`.
Neither side of the last comparison is a column, so no affinity is applied and
SQLite compares the value of the `COALESCE` with the TEXT of `strftime` by
storage class (`sqlGt`). -/
def outboxWhere (now lastIdx : Int) (user device : String) (r : OutboxRow) : Bool :=
  decide (r.id > lastIdx) && r.user == user && (r.device == device || r.device == "*")
    && sqlGt (sqlCoalesce r.when_expires (.integer (2 ^ 62))) (strftimeEpoch now)

/-- Rows of `getOutboxQuery`, in the order the scan of `cmd_outbox` yields them
(the query has no `ORDER BY`). -/
def getOutboxRows (s : Store) (now lastIdx : Int) (user device : String) : List OutboxRow :=
  s.cmd_outbox.filter (outboxWhere now lastIdx user device)

/-- Result function of the outbox select: the state is `(items, maxItem)`. -/
def outboxResultFunc {P : Type} (unmarshal : String → Except String P)
    (st : List P × Int) (row : OutboxRow) : Except String (List P × Int) :=
  let maxItem := max st.2 row.id
  match unmarshal row.data with
  | .error e => .error ("corrupt outbox item: " ++ e)
  | .ok item => .ok (st.1 ++ [item], maxItem)

/-- Modelled from the spec: the schema of `cmd_outbox_consumer_idx` is not among
the sources; the spec gives the table a unique index on `(user, device)`.  With
it, `INSERT OR IGNORE INTO cmd_outbox_consumer_idx (user, device, last_outbox_id)
VALUES (:u, :d, :loi)` adds the row only when no row has that key. -/
def insertOrIgnoreIdx (idx : List ConsumerIdxRow) (u d : String) (loi : Int) :
    List ConsumerIdxRow :=
  if idx.any (idxKeyIs u d) then idx
  else idx ++ [⟨u, d, loi⟩]

/-- `UPDATE cmd_outbox_consumer_idx SET last_outbox_id = :loi
WHERE user = :u AND device = :d`. -/
def updateIdx (idx : List ConsumerIdxRow) (u d : String) (loi : Int) : List ConsumerIdxRow :=
  idx.map (fun r => if idxKeyIs u d r then ⟨r.user, r.device, loi⟩ else r)

/-- What one call of `checkOutbox` leaves behind: the returned items or error,
the store, and the warnings logged. -/
structure OutboxResult (P : Type) where
  items : Except String (List P)
  store : Store
  warnings : List String

/-- The loop over the two offset statements: a failing statement is logged and
ends the loop. -/
def persistOffset (f : OutboxFaults) (s : Store) (user device : String) (maxItem : Int) :
    Store × List String :=
  if f.insertIdx then (s, ["failed to set max consumed id"])
  else
    let s1 : Store := ⟨s.users, s.location_reports, s.cmd_outbox,
      insertOrIgnoreIdx s.cmd_outbox_consumer_idx user device maxItem⟩
    if f.updateIdx then (s1, ["failed to set max consumed id"])
    else
      (⟨s1.users, s1.location_reports, s1.cmd_outbox,
        updateIdx s1.cmd_outbox_consumer_idx user device maxItem⟩, [])

/-- The offset lookup of `checkOutbox`: `lastIdx` stays 0 when no row comes
back. -/
def lookupLastIdx (f : OutboxFaults) (s : Store) (user device : String) :
    Except String (Int × Bool) :=
  if f.lastIdxQuery then .error "statement failed"
  else execRows (lastIdxRows s user device) lastIdxResultFunc (0, false)

/-- The outbox select of `checkOutbox`: `items` starts empty and `maxItem` at 0. -/
def selectOutbox {P : Type} (unmarshal : String → Except String P) (f : OutboxFaults)
    (now : Int) (s : Store) (lastIdx : Int) (user device : String) :
    Except String (List P × Int) :=
  if f.getOutboxQuery then .error "statement failed"
  else execRows (getOutboxRows s now lastIdx user device) (outboxResultFunc unmarshal) ([], 0)

/-- The function `checkOutbox` of `ep_pub.go`. -/
def checkOutbox {P : Type} (unmarshal : String → Except String P) (f : OutboxFaults)
    (now : Int) (s : Store) (user device : String) : OutboxResult P :=
  match lookupLastIdx f s user device with
  | .error e => ⟨.error ("failed to query last consumed index: " ++ e), s, []⟩
  | .ok (lastIdx, _) =>
    match selectOutbox unmarshal f now s lastIdx user device with
    | .error e => ⟨.error ("failed to get outbox items: " ++ e), s, []⟩
    | .ok (items, maxItem) =>
      let w := persistOffset f s user device maxItem
      ⟨.ok items, w.1, w.2⟩

/-- The persisted `last_outbox_id` of `(user, device)`, if a row exists. -/
def offsetOf (s : Store) (user device : String) : Option Int :=
  (s.cmd_outbox_consumer_idx.find? (idxKeyIs user device)).map (fun r => r.last_outbox_id)

/-- Modelled from the spec: the unique index on `(user, device)` of
`cmd_outbox_consumer_idx`, as a property of the table. -/
def uniqueIdx (s : Store) : Prop :=
  (s.cmd_outbox_consumer_idx.map (fun r => (r.user, r.device))).Nodup

instance (s : Store) : Decidable (uniqueIdx s) := by
  unfold uniqueIdx; infer_instance

/-- The offset a poll starts from, in the spec's words: the stored offset of
`(user, device)`, 0 when no offset row exists. -/
def currentOffset (s : Store) (user device : String) : Int :=
  (offsetOf s user device).getD 0

/-- The value `maxItem` has after the result function has seen `rows`. -/
def maxItemOf (rows : List OutboxRow) (init : Int) : Int :=
  rows.foldl (fun m r => max m r.id) init

/-! ## Concrete stores -/

/-- A decoder for concrete runs: every text decodes to itself. -/
def rawItem (x : String) : Except String String := .ok x

/-- Alice's phone1 has consumed the two outbox items 2 and 3: its offset is 3
and nothing is pending. -/
def storeConsumed : Store :=
  ⟨[], [], [⟨2, "alice", "*", "cmd2", .null⟩, ⟨3, "alice", "phone1", "cmd3", .null⟩],
    [⟨"alice", "phone1", 3⟩]⟩

/-- The spec's example: item 5 for alice on the wildcard device without expiry,
and the offset of (alice, phone1) at 3. -/
def storeExample : Store :=
  ⟨[], [], [⟨5, "alice", "*", "cmd5", .null⟩], [⟨"alice", "phone1", 3⟩]⟩

/-- The spec's example without an offset row. -/
def storeExampleFresh : Store :=
  ⟨[], [], [⟨5, "alice", "*", "cmd5", .null⟩], []⟩

/-- The spec's example with the expiry of item 5 stored as the date-time text
`2030-01-01 00:00:00`. -/
def storeDated : Store :=
  ⟨[], [], [⟨5, "alice", "*", "cmd5", .text "2030-01-01 00:00:00"⟩],
    [⟨"alice", "phone1", 3⟩]⟩

/-- Items 2 and 3 with the same date-time text as expiry, both consumed by
alice's phone1, whose offset is 3. -/
def storeDatedConsumed : Store :=
  ⟨[], [], [⟨2, "alice", "*", "cmd2", .text "2030-01-01 00:00:00"⟩,
      ⟨3, "alice", "phone1", "cmd3", .text "2030-01-01 00:00:00"⟩],
    [⟨"alice", "phone1", 3⟩]⟩

/-- Two pending items with a date-time text as expiry that the store yields with
the larger id first, as a scan through an index on (user, device) does: the
wildcard `*` sorts before `phone1`. -/
def storeUnordered : Store :=
  ⟨[], [], [⟨7, "alice", "*", "cmd7", .text "2030-01-01 00:00:00"⟩,
      ⟨5, "alice", "phone1", "cmd5", .text "2030-01-01 00:00:00"⟩], []⟩

/-- Above the offset 3: item 4 with the integer expiry 50 and item 5 with the
integer expiry 4000000000. -/
def storeExpired : Store :=
  ⟨[], [], [⟨4, "alice", "*", "cmd4", .integer 50⟩,
      ⟨5, "alice", "phone1", "cmd5", .integer 4000000000⟩],
    [⟨"alice", "phone1", 3⟩]⟩

/-- The same two items with their expiries stored as the texts `50` and
`4000000000`. -/
def storeExpiredText : Store :=
  ⟨[], [], [⟨4, "alice", "*", "cmd4", .text "50"⟩,
      ⟨5, "alice", "phone1", "cmd5", .text "4000000000"⟩],
    [⟨"alice", "phone1", 3⟩]⟩

/-- The same two items with date-time texts as expiries, 2020-01-01 and
2030-01-01. -/
def storeExpiredDated : Store :=
  ⟨[], [], [⟨4, "alice", "*", "cmd4", .text "2020-01-01 00:00:00"⟩,
      ⟨5, "alice", "phone1", "cmd5", .text "2030-01-01 00:00:00"⟩],
    [⟨"alice", "phone1", 3⟩]⟩

/-! ## Records (`otjson.go`) -/

/-- A decoded JSON value, as `encoding/json` stores it in an `any`: numbers are
`float64`, here the rational the float denotes. -/
inductive JVal where
  | null
  | bool (b : Bool)
  | num (v : ℚ)
  | str (s : String)
  | arr (xs : List JVal)
  | obj (kvs : List (String × JVal))

/-- The type `otLocation`, a `map[string]any`: a finite map from keys to values. -/
abbrev otLocation := String → Option JVal

/-- The assignment `m[key] = v`. -/
def mapSet (m : otLocation) (key : String) (v : JVal) : otLocation :=
  fun k => if k = key then some v else m k

/-- Go errors: `httpError` values, `errors.Wrap`, `errors.WithStack`, and
errors made from a text (`fmt.Errorf` and errors of external libraries). -/
inductive GoError where
  | httpError (statusCode : Int) (message : String)
  | wrap (cause : GoError) (message : String)
  | withStack (cause : GoError)
  | errorf (message : String)
deriving DecidableEq, Repr

/-- The method `Error()`. -/
def GoError.Error : GoError → String
  | .httpError _ message => message
  | .wrap cause message => message ++ ": " ++ cause.Error
  | .withStack cause => cause.Error
  | .errorf message => message

/-- The function `badRequest` of `main.go`, its format already applied. -/
def badRequest (message : String) : GoError := .httpError 400 message

/-- The function `srvError` of `main.go`, its format already applied. -/
def srvError (message : String) : GoError := .httpError 500 message

/-- The external libraries the code calls. -/
structure Libs where
  /-- The call `fastjson.GetString(d, key)`. -/
  fastjsonGetString : String → String → String
  /-- The call `json.Unmarshal` into a `map[string]any`. -/
  jsonUnmarshal : String → Except String otLocation
  /-- The call `json.Marshal` of a `map[string]any`. -/
  jsonMarshal : otLocation → String
  /-- The call `geohash.EncodeWithPrecision(lat, lon, chars)`. -/
  geohashEncodeWithPrecision : ℚ → ℚ → Nat → String
  /-- The call `olc.Encode(lat, lon, codeLen)`. -/
  olcEncode : ℚ → ℚ → Nat → String
  /-- The call `tz.GetZone(tz.Point{Lat, Lon})`. -/
  tzGetZone : ℚ → ℚ → Except String (List String)
  /-- The call `time.LoadLocation(name)`; a location is known by its name. -/
  timeLoadLocation : String → Except String String
  /-- The call `t.In(loc).Format(layout)` on `t = time.Unix(sec, 0)`. -/
  formatIn : String → String → Int → String
  /-- The call `t.UTC().Format(layout)` on `t = time.Unix(sec, 0)`. -/
  formatUTC : String → Int → String
  /-- The call `fmt.Sprintf("%v", v)` on a `float64`. -/
  sprintFloat : ℚ → String
  /-- The call `fmt.Sprintf("%q", s)`. -/
  sprintQuoted : String → String
  /-- The call `strings.ToUpper(s)`. -/
  stringsToUpper : String → String
  /-- The call `bytes.EqualFold(s, t)`. -/
  bytesEqualFold : String → String → Bool

/-- The function `readFloat64`: the value under `key` if it is a `float64`. -/
def readFloat64 (m : otLocation) (key : String) : Option ℚ :=
  match m key with
  | some (.num v) => some v
  | _ => none

/-- The conversion `int(v)` of a `float64`: the fraction is dropped.  (For a
value outside the range of `int` Go leaves the result to the implementation;
the model follows the conversion only inside that range.) -/
def floatToInt (v : ℚ) : Int :=
  if 0 ≤ v then ⌊v⌋ else ⌈v⌉

/-- The function `readInt`. -/
def readInt (m : otLocation) (key : String) : Option Int :=
  (readFloat64 m key).map floatToInt

/-- The function `readString`: a string as it is, a number or a boolean printed
with `%v`. -/
def readString (libs : Libs) (m : otLocation) (key : String) : Option String :=
  match m key with
  | some (.str s) => some s
  | some (.num v) => some (libs.sprintFloat v)
  | some (.bool b) => some (if b then "true" else "false")
  | _ => none

/-- The method `LatLng`: the pair `(lat, lon)` when both are present. -/
def LatLng (o : otLocation) : Option (ℚ × ℚ) :=
  match readFloat64 o "lat", readFloat64 o "lon" with
  | some lat, some lon => some (lat, lon)
  | _, _ => none

/-- The method `Topic`. -/
def Topic (libs : Libs) (o : otLocation) : Option String :=
  readString libs o "topic"

/-- The method `Timestamp`: `time.Unix(int64(tst), 0)`, kept as its epoch
seconds. -/
def Timestamp (o : otLocation) : Option Int :=
  readInt o "tst"

/-- The function `decodeOTLocationJSON`. -/
def decodeOTLocationJSON (libs : Libs) (d : String) : Except GoError otLocation :=
  match libs.jsonUnmarshal d with
  | .error e => .error (.wrap (.errorf e) "failed to json decode")
  | .ok out => .ok out

/-- The function `decodeOTJSON`; `otLocation` is the only variant. -/
def decodeOTJSON (libs : Libs) (d : String) : Except GoError otLocation :=
  let typ := libs.fastjsonGetString d "_type"
  if typ = "location" then decodeOTLocationJSON libs d
  else .error (.errorf ("unknown ot json type: " ++ libs.sprintQuoted typ))

/-! ## Enrichment (`ep_pub.go`) -/

/-- What `enrichOTLocationData` leaves behind: the returned error if any, the
record as mutated up to the return, and the warnings logged. -/
structure EnrichResult where
  err : Option GoError
  otdata : otLocation
  warnings : List String

/-- The layout `time.RFC3339`. -/
def layoutRFC3339 : String := "2006-01-02T15:04:05Z07:00"

/-- Lines 66-72 of `enrichOTLocationData`: the identity stamps and the topic
check. -/
def enrichStamp (libs : Libs) (user device : String) (otdata : otLocation) : EnrichResult :=
  let o1 := mapSet otdata "username" (.str user)
  let o2 := mapSet o1 "device" (.str device)
  let o3 := mapSet o2 "_http" (.bool true)
  match Topic libs o3 with
  | some t =>
    if t ≠ "owntracks/" ++ user ++ "/" ++ libs.stringsToUpper device then
      ⟨none, o3, ["unexpected topic"]⟩
    else ⟨none, o3, []⟩
  | none => ⟨none, o3, []⟩

/-- The function `enrichOTLocationData`. -/
def enrichOTLocationData (libs : Libs) (user device : String) (otdata : otLocation) :
    EnrichResult :=
  match LatLng otdata with
  | none => ⟨some (badRequest "lat,lon missing"), otdata, []⟩
  | some p =>
    let o1 := mapSet otdata "ghash" (.str (libs.geohashEncodeWithPrecision p.1 p.2 7))
    let o2 := mapSet o1 "pluscode" (.str (libs.olcEncode p.1 p.2 12))
    match libs.tzGetZone p.1 p.2 with
    | .error e =>
      ⟨some (.wrap (.errorf e) "failed to determine time zone from location"), o2, []⟩
    | .ok [] => enrichStamp libs user device o2
    | .ok (tz0 :: _) =>
      let o3 := mapSet o2 "tzname" (.str tz0)
      match libs.timeLoadLocation tz0 with
      | .error e => ⟨some (.wrap (.errorf e) "unable to load timezone from stdlib"), o3, []⟩
      | .ok loc =>
        match Timestamp o3 with
        | none => ⟨some (badRequest "missing tst timestamp"), o3, []⟩
        | some tst =>
          let o4 := mapSet o3 "isolocal" (.str (libs.formatIn loc layoutRFC3339 tst))
          let o5 := mapSet o4 "disptst" (.str (libs.formatUTC "2006-01-02 03:04:05" tst))
          let o6 := mapSet o5 "isotst" (.str (libs.formatUTC layoutRFC3339 tst))
          enrichStamp libs user device o6

/-! ## The `/pub` handler (`ep_pub.go`) -/

/-- The type `PubRequest`. -/
structure PubRequest where
  User : String
  Device : String
  Body : String

/-- The type `PubResponse`. -/
structure PubResponse where
  Messages : List otLocation

/-- Which store operations of one `/pub` request fail. -/
structure PubFaults where
  dbGet : Bool
  userSelect : Bool
  userInsert : Bool
  reportInsert : Bool
  outbox : OutboxFaults

/-- Modelled from the spec: the schema of `users` and `location_reports` is not
among the sources; ids are store-assigned, here one above the largest id in
the table. -/
def nextId (ids : List Int) : Int :=
  ids.foldl max 0 + 1

/-- The function `getUserID`; the result function of the lookup overwrites
`xid` on every row, so the last matching row wins. -/
def getUserID (f : PubFaults) (s : Store) (user : String) : Except GoError Int × Store :=
  if f.userSelect then
    (.error (.wrap (.errorf "statement failed") "failed to lookup existing user id"), s)
  else
    match (s.users.filter (fun r => r.user == user)).getLast? with
    | some r => (.ok r.id, s)
    | none =>
      if f.userInsert then
        (.error (.wrap (.errorf "statement failed") "failed to insert new user"), s)
      else
        let id := nextId (s.users.map (fun r => r.id))
        (.ok id, ⟨s.users ++ [⟨id, user⟩], s.location_reports, s.cmd_outbox,
          s.cmd_outbox_consumer_idx⟩)

/-- The statement `INSERT INTO location_reports (user_id, device, data)
VALUES (?1, ?2, ?3)`. -/
def insertReport (s : Store) (userID : Int) (device data : String) : Store :=
  ⟨s.users,
    s.location_reports ++ [⟨nextId (s.location_reports.map (fun r => r.id)), userID, device, data⟩],
    s.cmd_outbox, s.cmd_outbox_consumer_idx⟩

/-- What one `/pub` request leaves behind: the handler's return value, the
store, the record handed to `go bcast()` if that line was reached, and the log
lines written. -/
structure PubResult where
  response : Except GoError PubResponse
  store : Store
  bcast : Option otLocation
  logs : List String

/-- Lines 228-241 of the handler: the broadcast is started, the outbox is
polled, and the response is built.  (After the successful insert of one row
`conn.Changes()` is 1, so the warning on another count is not logged.) -/
def pubAfterInsert (libs : Libs) (f : PubFaults) (now : Int) (s : Store)
    (request : PubRequest) (otdata : otLocation) (logs : List String) : PubResult :=
  let polled := checkOutbox libs.jsonUnmarshal f.outbox now s request.User request.Device
  match polled.items with
  | .error _ =>
    ⟨.ok ⟨[]⟩, polled.store, some otdata, logs ++ polled.warnings ++ ["failed to check outbox"]⟩
  | .ok outbox =>
    ⟨.ok ⟨outbox⟩, polled.store, some otdata, logs ++ polled.warnings⟩

/-- The handler of `PubEndpoint`; `verified` is the user name the credential
layer put in the context, `now` the store clock. -/
def PubEndpoint (libs : Libs) (f : PubFaults) (now : Int) (verified : Option String)
    (s : Store) (request : PubRequest) : PubResult :=
  if request.User ≠ verified.getD "" then
    ⟨.error (badRequest "input data and auth data mismatch"), s, none, []⟩
  else if request.User = "" ∨ request.Device = "" then
    ⟨.error (badRequest "user and device input is required"), s, none, []⟩
  else
    match decodeOTJSON libs request.Body with
    | .error err =>
      ⟨.error (badRequest ("failed to decode ot json: " ++ err.Error)), s, none, []⟩
    | .ok otdata0 =>
      let enriched := enrichOTLocationData libs request.User request.Device otdata0
      match enriched.err with
      | some err => ⟨.error (.withStack err), s, none, enriched.warnings⟩
      | none =>
        let otdata := enriched.otdata
        if f.dbGet then
          ⟨.error (srvError "failed connect to db"), s, none, enriched.warnings ++ ["db error"]⟩
        else
          match getUserID f s request.User with
          | (.error err, s1) =>
            ⟨.error (.wrap err "failed to get user id"), s1, none, enriched.warnings⟩
          | (.ok userID, s1) =>
            if f.reportInsert then
              ⟨.error (srvError "failed to talk to db"), s1, none,
                enriched.warnings ++ ["db error"]⟩
            else
              pubAfterInsert libs f now
                (insertReport s1 userID request.Device (libs.jsonMarshal otdata))
                request otdata enriched.warnings

/-! ## The broadcast hub (`ep_ws_last.go`) -/

/-- A buffered Go channel of records: the queued values, the capacity, and
whether it has been closed. -/
structure Chan where
  buf : List otLocation
  cap : Nat
  closed : Bool

/-- How an operation on the hub ends when it does not return: a panic, or a
send that blocks on a full channel. -/
inductive Fault where
  | panic (msg : String)
  | blocked
deriving DecidableEq, Repr

/-- The type `liveLocations`: the slice `out` of registered channels, each
channel named by a number, and the channels themselves.  (The field `in` of the
source is never used.) -/
structure liveLocations where
  out : List Nat
  chans : Nat → Chan

/-- The function `newLiveLocations`; `chans` gives the channels that
connections will make, each `make(chan otLocation, 5)`. -/
def newLiveLocations : liveLocations :=
  ⟨[], fun _ => ⟨[], 5, false⟩⟩

/-- The statement `oc <- d`. -/
def chanSend (c : Chan) (d : otLocation) : Except Fault Chan :=
  if c.closed then .error (.panic "send on closed channel")
  else if c.buf.length < c.cap then .ok ⟨c.buf ++ [d], c.cap, c.closed⟩
  else .error .blocked

/-- The loop of `broadcast` over `l.out`. -/
def broadcastLoop (d : otLocation) : List Nat → (Nat → Chan) → Except Fault (Nat → Chan)
  | [], chans => .ok chans
  | oc :: rest, chans =>
    match chanSend (chans oc) d with
    | .error e => .error e
    | .ok c => broadcastLoop d rest (Function.update chans oc c)

/-- The method `broadcast`. -/
def broadcast (l : liveLocations) (d : otLocation) : Except Fault liveLocations :=
  match broadcastLoop d l.out l.chans with
  | .error e => .error e
  | .ok chans => .ok ⟨l.out, chans⟩

/-- The closure `subscribe` returns: it holds the index `idx` the channel had
when it was appended, and the channel `c`. -/
structure Unsubscribe where
  idx : Nat
  c : Nat
deriving DecidableEq, Repr

/-- The method `subscribe`. -/
def subscribe (l : liveLocations) (c : Nat) : liveLocations × Unsubscribe :=
  let out := l.out ++ [c]
  (⟨out, l.chans⟩, ⟨out.length - 1, c⟩)

/-- The call `slices.Delete(s, i, j)`: it panics (`none`) unless `s[i:j]` is a
valid slice of `s`. -/
def slicesDelete {α : Type} (s : List α) (i j : Nat) : Option (List α) :=
  if i ≤ j ∧ j ≤ s.length then some (s.take i ++ s.drop j) else none

/-- The closure returned by `subscribe`, run on the hub as it is when the
closure is called.  A panic leaves the hub as it was. -/
def unsubscribe (u : Unsubscribe) (l : liveLocations) : Except Fault liveLocations :=
  match slicesDelete l.out u.idx (u.idx + 1) with
  | none => .error (.panic "slice bounds out of range")
  | some out =>
    if (l.chans u.c).closed then .error (.panic "close of closed channel")
    else .ok ⟨out, Function.update l.chans u.c ⟨(l.chans u.c).buf, (l.chans u.c).cap, true⟩⟩

/-! ## The `/ws/last` connection loop (`ep_ws_last.go`) -/

/-- The type `wsMessage`. -/
structure wsMessage where
  typ : Int
  p : String
deriving DecidableEq, Repr

/-- The constant `websocket.TextMessage`. -/
def TextMessage : Int := 1

/-- The function `toLiveLocMessage`. -/
def toLiveLocMessage (loc : otLocation) : otLocation :=
  mapSet loc "_label" (.str "OwnTracks")

/-- The case of the `select` that fires in one iteration of the loop: a record
from `updates`, a message from `inMessages`, or `inMessages` found closed. -/
inductive SelectCase where
  | update (l : otLocation)
  | message (msg : wsMessage)
  | inClosed

/-- The state of the connection loop: the variable `ready`, the messages
written to the client so far, and the warnings logged. -/
structure ConnState where
  ready : Bool
  written : List wsMessage
  warnings : List String
deriving DecidableEq, Repr

/-- The state at `ready := false`, before the first iteration. -/
def connInit : ConnState := ⟨false, [], []⟩

/-- One iteration of the `for`/`select` loop of `WebsocketLastLocationEndpoint`.
No case leaves the loop: the `break` of the closed case only leaves the
`select`. -/
def connStep (libs : Libs) (st : ConnState) : SelectCase → ConnState
  | .update l =>
    ⟨st.ready, st.written ++ [⟨TextMessage, libs.jsonMarshal (toLiveLocMessage l)⟩], st.warnings⟩
  | .inClosed => st
  | .message msg =>
    if st.ready = false then
      if msg.typ = TextMessage ∧ libs.bytesEqualFold "LAST" msg.p = true then
        ⟨true, st.written, st.warnings⟩
      else ⟨st.ready, st.written, st.warnings ++ ["unexpected first message"]⟩
    else st

/-- The loop run over the cases that fire, in order. -/
def connRun (libs : Libs) (st : ConnState) (cases : List SelectCase) : ConnState :=
  cases.foldl (connStep libs) st

/-! ## Concrete runs of the handler, the hub and the connection -/

/-- The record with `lat` 1 and `lon` 2 and nothing else. -/
def recLatLon : otLocation :=
  fun k => if k = "lat" then some (.num 1) else if k = "lon" then some (.num 2) else none

/-- External functions fixed for concrete runs: the text `corrupt` does not
decode and every other text decodes to `recLatLon` with `_type` `location`, no
time zone is found, and every encoding is a fixed text. -/
def libsFixed : Libs :=
  ⟨fun _ _ => "location",
    fun d => if d = "corrupt" then .error "invalid character" else .ok recLatLon,
    fun _ => "json",
    fun _ _ _ => "ghash7",
    fun _ _ _ => "pluscode12",
    fun _ _ => .ok [],
    fun name => .ok name,
    fun _ _ _ => "local",
    fun _ _ => "utc",
    fun _ => "1",
    fun s => s,
    fun s => s.toUpper,
    fun s t => s.toUpper == t.toUpper⟩

/-- The request of alice's phone1. -/
def requestAlice : PubRequest := ⟨"alice", "phone1", "body"⟩

/-- No operation of the request fails except the offset lookup of the poll. -/
def faultsLookup : PubFaults :=
  ⟨false, false, false, false, ⟨true, false, false, false⟩⟩

/-- No operation of the request fails. -/
def noPubFaults : PubFaults :=
  ⟨false, false, false, false, noOutboxFaults⟩

/-- A pending item for (alice, phone1), with a date-time text as expiry, whose
payload does not decode. -/
def storeCorrupt : Store :=
  ⟨[], [], [⟨5, "alice", "phone1", "corrupt", .text "2030-01-01 00:00:00"⟩], []⟩

/-- Pending items 5 and 7 for (alice, phone1), with a date-time text as expiry,
yielded in ascending id order. -/
def storeOrdered : Store :=
  ⟨[], [], [⟨5, "alice", "*", "cmd5", .text "2030-01-01 00:00:00"⟩,
      ⟨7, "alice", "phone1", "cmd7", .text "2030-01-01 00:00:00"⟩], []⟩

/-- The hub after the channels 1 and 2 subscribed, in that order. -/
def hubAB : liveLocations :=
  (subscribe (subscribe newLiveLocations 1).1 2).1

/-- The hub after the channels 1, 2 and 3 subscribed, in that order. -/
def hubABC : liveLocations :=
  (subscribe hubAB 3).1

/-- The unsubscribe closure of channel 1, the first subscriber. -/
def unsubA : Unsubscribe := (subscribe newLiveLocations 1).2

/-- The unsubscribe closure of channel 2, the second subscriber. -/
def unsubB : Unsubscribe := (subscribe (subscribe newLiveLocations 1).1 2).2

/-- The registry of a hub an operation returned, if it returned. -/
def outOf (r : Except Fault liveLocations) : Option (List Nat) :=
  match r with
  | .ok l => some l.out
  | .error _ => none

/-- Whether channel `c` is closed in the hub an operation returned. -/
def closedIn (r : Except Fault liveLocations) (c : Nat) : Option Bool :=
  match r with
  | .ok l => some (l.chans c).closed
  | .error _ => none

/-- The fault an operation ended with, if it did not return. -/
def faultOf (r : Except Fault liveLocations) : Option Fault :=
  match r with
  | .ok _ => none
  | .error e => some e

/-- Runs an operation on the hub a previous operation returned. -/
def andThen (r : Except Fault liveLocations) (op : liveLocations → Except Fault liveLocations) :
    Except Fault liveLocations :=
  match r with
  | .ok l => op l
  | .error e => .error e

/-! ## Time formatting (Go standard library `time`) -/

/-- The calendar fields of an instant, as `time.Time` methods give them in UTC. -/
structure Clock where
  year : Int
  month : Int
  day : Int
  hour : Int
  minute : Int
  second : Int
deriving DecidableEq, Repr

/-- The proleptic Gregorian date `(year, month, day)` of the day that lies
`days` days after 1970-01-01. -/
def civilFromDays (days : Int) : Int × Int × Int :=
  let z := days + 719468
  let era := z / 146097
  let doe := z % 146097
  let yoe := (doe - doe / 1460 + doe / 36524 - doe / 146096) / 365
  let doy := doe - (365 * yoe + yoe / 4 - yoe / 100)
  let mp := (5 * doy + 2) / 153
  let d := doy - (153 * mp + 2) / 5 + 1
  let m := if mp < 10 then mp + 3 else mp - 9
  (yoe + era * 400 + (if m ≤ 2 then 1 else 0), m, d)

/-- The number of days from 1970-01-01 to the proleptic Gregorian date
`year-month-day`. -/
def daysFromCivil (year month day : Int) : Int :=
  let y := if month ≤ 2 then year - 1 else year
  let era := y / 400
  let yoe := y % 400
  let mp := if month > 2 then month - 3 else month + 9
  let doy := (153 * mp + 2) / 5 + day - 1
  let doe := yoe * 365 + yoe / 4 - yoe / 100 + doy
  era * 146097 + doe - 719468

/-- The fields of `time.Unix(unix, 0).UTC()`. -/
def utcClock (unix : Int) : Clock :=
  let c := civilFromDays (unix / 86400)
  let secs := unix % 86400
  ⟨c.1, c.2.1, c.2.2, secs / 3600, secs % 3600 / 60, secs % 60⟩

/-- Whether the list `l` begins with `chunk`. -/
def startsWith : List Char → List Char → Bool
  | [], _ => true
  | _ :: _, [] => false
  | c :: cs, x :: xs => c == x && startsWith cs xs

/-- The hour on the 12-hour clock, as `Format` computes it for the chunk `03`:
`hr := hour % 12; if hr == 0 { hr = 12 }`. -/
def hour12 (hour : Int) : Int :=
  if hour % 12 = 0 then 12 else hour % 12

/-- The layout interpreter of `Time.Format` in UTC, for the chunks that occur in
the layouts of the source: `2006` (year), `01` (month), `02` (day), `03` (hour on
the 12-hour clock), `04` (minute), `05` (second), `15` (hour on the 24-hour
clock), `Z07:00` (zone, `Z` in UTC); every other character of those layouts is
copied. -/
def formatLayout (k : Clock) : Nat → List Char → List Char
  | 0, _ => []
  | fuel + 1, l =>
    if startsWith "2006".toList l then appendInt k.year 4 ++ formatLayout k fuel (l.drop 4)
    else if startsWith "01".toList l then appendInt k.month 2 ++ formatLayout k fuel (l.drop 2)
    else if startsWith "02".toList l then appendInt k.day 2 ++ formatLayout k fuel (l.drop 2)
    else if startsWith "03".toList l then
      appendInt (hour12 k.hour) 2 ++ formatLayout k fuel (l.drop 2)
    else if startsWith "04".toList l then appendInt k.minute 2 ++ formatLayout k fuel (l.drop 2)
    else if startsWith "05".toList l then appendInt k.second 2 ++ formatLayout k fuel (l.drop 2)
    else if startsWith "15".toList l then appendInt k.hour 2 ++ formatLayout k fuel (l.drop 2)
    else if startsWith "Z07:00".toList l then 'Z' :: formatLayout k fuel (l.drop 6)
    else
      match l with
      | [] => []
      | c :: rest => c :: formatLayout k fuel rest

/-- The call `time.Unix(unix, 0).UTC().Format(layout)`. -/
def goFormatUTC (layout : String) (unix : Int) : String :=
  String.mk (formatLayout (utcClock unix) layout.length layout.toList)

/-- The rendering `YYYY-MM-DDTHH:MM:SSZ` of an instant, in the spec's words: the
UTC date and the time of day on the 24-hour clock. -/
def rfc3339UTC (unix : Int) : String :=
  let k := utcClock unix
  String.mk (appendInt k.year 4 ++ ['-'] ++ appendInt k.month 2 ++ ['-'] ++ appendInt k.day 2
    ++ ['T'] ++ appendInt k.hour 2 ++ [':'] ++ appendInt k.minute 2 ++ [':']
    ++ appendInt k.second 2 ++ ['Z'])

/-- The display form `YYYY-MM-DD HH:MM:SS` of an instant, in the spec's words:
the same UTC date and time of day as `rfc3339UTC`. -/
def displayUTC (unix : Int) : String :=
  let k := utcClock unix
  String.mk (appendInt k.year 4 ++ ['-'] ++ appendInt k.month 2 ++ ['-'] ++ appendInt k.day 2
    ++ [' '] ++ appendInt k.hour 2 ++ [':'] ++ appendInt k.minute 2 ++ [':']
    ++ appendInt k.second 2)

/-- The clock `k` shows the instant `unix`: its date is a date of the calendar,
its time of day is on the 24-hour clock, and date and time of day together lie
`unix` seconds after 1970-01-01T00:00:00Z. -/
def clockShows (k : Clock) (unix : Int) : Prop :=
  1 ≤ k.month ∧ k.month ≤ 12 ∧ 1 ≤ k.day ∧ k.day ≤ 31
    ∧ 0 ≤ k.hour ∧ k.hour < 24 ∧ 0 ≤ k.minute ∧ k.minute < 60
    ∧ 0 ≤ k.second ∧ k.second < 60
    ∧ daysFromCivil k.year k.month k.day * 86400 + k.hour * 3600 + k.minute * 60 + k.second
        = unix

/-! ## Error classification (`main.go`, transport) -/

/-- The method `StatusCode()`: only `httpError` has it, returning
`max(h.statusCode, 400)`; the wrappers of `pkg/errors` (`Wrap`, `WithStack`)
and plain errors expose `Error()` alone. -/
def GoError.StatusCode : GoError → Option Int
  | .httpError statusCode _ => some (max statusCode 400)
  | _ => none

/-- The status the transport writes for an error the handler returned: `ep.New`
sets no error encoder, so the default one of `go-kit` runs, which uses the
error's own `StatusCode()` if it has the method and 500 otherwise. -/
def responseStatus (err : GoError) : Int :=
  (err.StatusCode).getD 500

/-! ## JSON objects -/

/-- Whether a member of a JSON object is named `key`. -/
def memberNamed (key : String) (kv : String × JVal) : Bool :=
  kv.1 == key

/-- The value of the first member named `key` among the top-level members of a
JSON object. -/
def firstMember (fields : List (String × JVal)) (key : String) : Option JVal :=
  (fields.find? (memberNamed key)).map Prod.snd

/-- The map `encoding/json` builds from the top-level members of a JSON object:
a later member overwrites an earlier one of the same name. -/
def objectMap (fields : List (String × JVal)) : otLocation :=
  fun key => firstMember fields.reverse key

/-- What `fastjson.GetString(d, key)` returns on an object with the members
`fields`: the first member named `key` if it is a string, else the empty
string. -/
def objectGetString (fields : List (String × JVal)) (key : String) : String :=
  match firstMember fields key with
  | some (.str s) => s
  | _ => ""

/-! ## The last-location query (`ep_last_location.go`) -/

/-- The conditions `lastLocation` can put in its `WHERE` clause. -/
inductive LastCond where
  | user
  | device
  | always
deriving DecidableEq, Repr

/-- The text of a condition, as the source writes it. -/
def LastCond.sql : LastCond → String
  | .user => "user_id = (SELECT id FROM users WHERE user = ?1)"
  | .device => "device = ?2"
  | .always => "1 = 1"

/-- The numbered placeholder a condition refers to. -/
def LastCond.placeholder : LastCond → Option Nat
  | .user => some 1
  | .device => some 2
  | .always => none

/-- The slices `conds` and `args` that `lastLocation` builds. -/
structure LastLocationQuery where
  conds : List LastCond
  args : List String
deriving DecidableEq, Repr

/-- Lines 93-106 of `lastLocation`: a condition and an argument are appended for
each filter that is present; without conditions `1 = 1` is used. -/
def lastLocationQuery (user device : Option String) : LastLocationQuery :=
  let q1 : LastLocationQuery :=
    match user with
    | some u => ⟨[.user], [u]⟩
    | none => ⟨[], []⟩
  let q2 : LastLocationQuery :=
    match device with
    | some d => ⟨q1.conds ++ [.device], q1.args ++ [d]⟩
    | none => q1
  if q2.conds.length = 0 then ⟨[.always], q2.args⟩ else q2

/-- The value the statement sees at placeholder `?n`: `sqlitex.Execute` binds
`Args[i]` to parameter number `i + 1`, and a parameter that got no argument is
`NULL` (`none`). -/
def boundArg (args : List String) (n : Nat) : Option String :=
  if n = 0 then none else args.get? (n - 1)

/-- Whether a row of `location_reports` satisfies a condition; a comparison with
`NULL` selects no row. -/
def condHolds (s : Store) (args : List String) (row : LocationReportRow) : LastCond → Bool
  | .user =>
    match boundArg args 1 with
    | none => false
    | some u =>
      match s.users.find? (fun r => r.user == u) with
      | none => false
      | some r => row.user_id == r.id
  | .device =>
    match boundArg args 2 with
    | none => false
    | some d => row.device == d
  | .always => true

/-- Rows of `location_reports` that satisfy every condition of the query. -/
def matchingReports (s : Store) (q : LastLocationQuery) : List LocationReportRow :=
  s.location_reports.filter (fun row => q.conds.all (condHolds s q.args row))

/-- Rows of the query of `lastLocation`: of the matching reports the one with the
largest id per `(user_id, device)`, joined with its user. -/
def lastLocationRows (s : Store) (q : LastLocationQuery) : List (Int × String × String × String) :=
  (s.location_reports.filter (fun row =>
      (matchingReports s q).any (fun m => m.id == row.id
        && (matchingReports s q).all (fun m2 =>
          !(m2.user_id == m.user_id && m2.device == m.device) || decide (m2.id ≤ m.id))))).filterMap
    (fun row => (s.users.find? (fun u => u.id == row.user_id)).map
      (fun u => (row.id, u.user, row.device, row.data)))

/-- Lines 133-142 of `lastLocation`: the rows are decoded in order. -/
def decodeLocations (libs : Libs) : List (Int × String × String × String) →
    Except GoError (List otLocation)
  | [] => .ok []
  | r :: rest =>
    match libs.jsonUnmarshal r.2.2.2 with
    | .error e => .error (.wrap (.errorf e) "corrupt location data")
    | .ok l =>
      match decodeLocations libs rest with
      | .error e => .error e
      | .ok locs => .ok (l :: locs)

/-- The function `lastLocation`; `queryFails` says whether the statement fails. -/
def lastLocation (libs : Libs) (queryFails : Bool) (s : Store) (user device : Option String) :
    Except GoError (List otLocation) :=
  if queryFails then .error (.wrap (.errorf "statement failed") "query failed")
  else decodeLocations libs (lastLocationRows s (lastLocationQuery user device))

/-! ## The `/ws/last` handler (`ep_ws_last.go`) -/

/-- How an iteration of the `for` loop ends: with the next iteration, or by
leaving the function. -/
inductive LoopControl where
  | next (st : ConnState)
  | returned (st : ConnState)
deriving DecidableEq, Repr

/-- One iteration of the loop with its control flow: the body holds no `return`
and no labelled `break`, and the `break` of the closed case ends the `select`
only, so every case goes on to the next iteration. -/
def connIteration (libs : Libs) (st : ConnState) (c : SelectCase) : LoopControl :=
  match c with
  | .update l => .next (connStep libs st (.update l))
  | .message msg => .next (connStep libs st (.message msg))
  | .inClosed => .next (connStep libs st .inClosed)

/-- The loop over the cases that fire, in order; `next` at the end of the list
means the task is still inside the loop. -/
def connLoop (libs : Libs) : ConnState → List SelectCase → LoopControl
  | st, [] => .next st
  | st, c :: rest =>
    match connIteration libs st c with
    | .returned st2 => .returned st2
    | .next st2 => connLoop libs st2 rest

/-- What a `/ws/last` connection has done after the given cases fired: the hub,
the loop state, and whether the handler has returned (its deferred `unsubscribe`
and `ws.Close` run only then). -/
structure WsResult where
  hub : liveLocations
  conn : ConnState
  returned : Bool

/-- The handler of `WebsocketLastLocationEndpoint` after a successful upgrade:
channel `c` is the `updates` channel the handler makes and subscribes. -/
def WebsocketLastLocationEndpoint (libs : Libs) (l : liveLocations) (c : Nat)
    (cases : List SelectCase) : Except Fault WsResult :=
  let sub := subscribe l c
  match connLoop libs connInit cases with
  | .next st => .ok ⟨sub.1, st, false⟩
  | .returned st =>
    match unsubscribe sub.2 sub.1 with
    | .error e => .error e
    | .ok l2 => .ok ⟨l2, st, true⟩

/-! ## Concrete records and libraries for the enrichment claims -/

/-- A record with `tst` but without coordinates. -/
def recNoCoords : otLocation :=
  fun k => if k = "tst" then some (.num 1700000000) else none

/-- A record whose `lat` is a string, not a number. -/
def recLatString : otLocation :=
  fun k => if k = "lat" then some (.str "37.7749") else if k = "lon" then some (.num 2) else none

/-- The spec's example record: `lat` 37.7749, `lon` -122.4194, `tst` 1700000000. -/
def recFull : otLocation :=
  fun k =>
    if k = "lat" then some (.num (377749 / 10000))
    else if k = "lon" then some (.num (-1224194 / 10000))
    else if k = "tst" then some (.num 1700000000)
    else none

/-- The example record twelve hours earlier, `tst` 1699956800. -/
def recEarly : otLocation :=
  fun k =>
    if k = "lat" then some (.num (377749 / 10000))
    else if k = "lon" then some (.num (-1224194 / 10000))
    else if k = "tst" then some (.num 1699956800)
    else none

/-- The example record with a fraction of a second, `tst` 1700000000.9. -/
def recFraction : otLocation :=
  fun k =>
    if k = "lat" then some (.num (377749 / 10000))
    else if k = "lon" then some (.num (-1224194 / 10000))
    else if k = "tst" then some (.num (17000000009 / 10))
    else none

/-- External functions fixed for concrete runs of the enrichment: the body
`status` has `_type` `status`, the body `corrupt` does not decode, the bodies
`nocoords`, `notst`, `early` decode to the records of those names and every
other body to `recFull`; every coordinate lies in the zone `Etc/UTC`; times are
formatted by `goFormatUTC`. -/
def libsZoned : Libs :=
  ⟨fun d _ => if d = "status" then "status" else "location",
    fun d =>
      if d = "corrupt" then .error "invalid character"
      else if d = "nocoords" then .ok recNoCoords
      else if d = "notst" then .ok recLatLon
      else if d = "early" then .ok recEarly
      else .ok recFull,
    fun _ => "json",
    fun _ _ _ => "9q8yyk8",
    fun _ _ _ => "849VQHFJ+X6GX",
    fun _ _ => .ok ["Etc/UTC"],
    fun name => .ok name,
    fun _ layout unix => goFormatUTC layout unix,
    goFormatUTC,
    fun _ => "1",
    fun s => "\"" ++ s ++ "\"",
    fun s => s.toUpper,
    fun s t => s.toUpper == t.toUpper⟩

/-- The request of alice's phone1 with the given body. -/
def requestWith (body : String) : PubRequest := ⟨"alice", "phone1", body⟩

/-- A store with alice as user 1 and one report of her phone1. -/
def storeReports : Store :=
  ⟨[⟨1, "alice"⟩], [⟨1, 1, "phone1", "json"⟩], [], []⟩

/-- The value under `key` as a string, if it is one. -/
def strAt (o : otLocation) (key : String) : Option String :=
  match o key with
  | some (.str s) => some s
  | _ => none

/-- The error a request ended with, if it did. -/
def errOf (r : PubResult) : Option GoError :=
  match r.response with
  | .error e => some e
  | .ok _ => none

/-- External functions for concrete runs of the decoder: every body is the JSON
object with the top-level members `fields`. -/
def libsOfObject (fields : List (String × JVal)) : Libs :=
  ⟨fun _ key => objectGetString fields key,
    fun _ => .ok (objectMap fields),
    fun _ => "json",
    fun _ _ _ => "ghash7",
    fun _ _ _ => "pluscode12",
    fun _ _ => .ok [],
    fun name => .ok name,
    fun _ _ _ => "local",
    fun _ _ => "utc",
    fun _ => "1",
    fun s => s,
    fun s => s.toUpper,
    fun s t => s.toUpper == t.toUpper⟩

/-- The members of a location payload without coordinates. -/
def fieldsLocation : List (String × JVal) :=
  [("_type", .str "location"), ("batt", .num 80)]

/-- The members of a payload of another kind. -/
def fieldsStatus : List (String × JVal) :=
  [("_type", .str "status"), ("lat", .num 1), ("lon", .num 2)]

/-- The members of a payload that names `_type` twice. -/
def fieldsTwoTypes : List (String × JVal) :=
  [("_type", .str "location"), ("_type", .str "status"), ("lat", .num 1)]

/-- The `_type` of the record a decoding returned, if it returned one and the
record has a string there. -/
def decodedType (r : Except GoError otLocation) : Option String :=
  match r with
  | .ok o => strAt o "_type"
  | .error _ => none

/-- The error a decoding returned, if it returned one. -/
def decodeError (r : Except GoError otLocation) : Option GoError :=
  match r with
  | .ok _ => none
  | .error e => some e

/-- Whether the handler of a connection has returned. -/
def wsReturned (r : Except Fault WsResult) : Option Bool :=
  match r with
  | .ok w => some w.returned
  | .error _ => none

/-- The registry of the hub a connection leaves behind. -/
def wsOut (r : Except Fault WsResult) : Option (List Nat) :=
  match r with
  | .ok w => some w.hub.out
  | .error _ => none

/-- Whether channel `c` is closed in the hub a connection leaves behind. -/
def wsClosed (r : Except Fault WsResult) (c : Nat) : Option Bool :=
  match r with
  | .ok w => some (w.hub.chans c).closed
  | .error _ => none

/-! # Theorems -/

/-! ## Lemmas on the offset table -/

theorem idxKeyIs_iff (u d : String) (r : ConsumerIdxRow) :
    idxKeyIs u d r = true ↔ r.user = u ∧ r.device = d := by
  simp [idxKeyIs]

theorem filter_key_length_le_one (idx : List ConsumerIdxRow) (u d : String)
    (h : (idx.map (fun r => (r.user, r.device))).Nodup) :
    (idx.filter (idxKeyIs u d)).length ≤ 1 := by
  induction idx with
  | nil => simp
  | cons r rest ih =>
    simp only [List.map_cons, List.nodup_cons] at h
    by_cases hk : idxKeyIs u d r = true
    · have hnone : rest.filter (idxKeyIs u d) = [] := by
        rw [List.filter_eq_nil_iff]
        intro r2 hr2 hk2
        apply h.1
        rw [idxKeyIs_iff] at hk hk2
        rw [List.mem_map]
        exact ⟨r2, hr2, by rw [hk.1, hk.2, hk2.1, hk2.2]⟩
      rw [List.filter_cons_of_pos hk, hnone]; simp
    · rw [List.filter_cons_of_neg hk]; exact ih h.2

theorem find_eq_head_filter {α : Type} (p : α → Bool) (l : List α) :
    l.find? p = (l.filter p).head? := by
  induction l with
  | nil => rfl
  | cons a rest ih =>
    by_cases h : p a = true
    · rw [List.find?_cons_of_pos _ h, List.filter_cons_of_pos h]; rfl
    · rw [List.find?_cons_of_neg _ h, List.filter_cons_of_neg h]; exact ih

theorem execRows_lastIdx (s : Store) (u d : String) (h : uniqueIdx s) :
    ∃ b, execRows (lastIdxRows s u d) lastIdxResultFunc (0, false)
      = .ok (currentOffset s u d, b) := by
  have hlen := filter_key_length_le_one s.cmd_outbox_consumer_idx u d h
  have hfind := find_eq_head_filter (idxKeyIs u d) s.cmd_outbox_consumer_idx
  unfold currentOffset offsetOf lastIdxRows
  rw [hfind]
  generalize s.cmd_outbox_consumer_idx.filter (idxKeyIs u d) = rows at hlen
  match rows, hlen with
  | [], _ => exact ⟨false, rfl⟩
  | [r], _ => exact ⟨true, rfl⟩
  | _ :: _ :: _, hl => simp at hl

/-! ## Lemmas on the outbox select -/

theorem execRows_outbox_iff {P : Type} (um : String → Except String P)
    (rows : List OutboxRow) (acc : List P) (m : Int) (items : List P) (m2 : Int) :
    execRows rows (outboxResultFunc um) (acc, m) = .ok (items, m2) ↔
      ∃ ps, rows.map (fun r => um r.data) = ps.map Except.ok ∧ items = acc ++ ps
        ∧ m2 = maxItemOf rows m := by
  induction rows generalizing acc m with
  | nil =>
    simp only [execRows, maxItemOf, List.foldl_nil, List.map_nil]
    constructor
    · intro h
      injection h with h
      injection h with h1 h2
      exact ⟨[], rfl, by simp [h1], h2.symm⟩
    · rintro ⟨ps, hps, hi, hm⟩
      have : ps = [] := by
        cases ps with
        | nil => rfl
        | cons a t => simp at hps
      subst this
      simp [hi, hm]
  | cons r rest ih =>
    simp only [execRows, outboxResultFunc, maxItemOf, List.foldl_cons, List.map_cons]
    cases hu : um r.data with
    | error e =>
      simp only []
      constructor
      · intro h; cases h
      · rintro ⟨ps, hps, _, _⟩
        cases ps with
        | nil => simp at hps
        | cons a t => simp at hps
    | ok p =>
      simp only []
      rw [ih]
      constructor
      · rintro ⟨ps, hps, hi, hm⟩
        exact ⟨p :: ps, by simp [hps], by simp [hi], hm⟩
      · rintro ⟨ps, hps, hi, hm⟩
        cases ps with
        | nil => simp at hps
        | cons a t =>
          simp only [List.map_cons, List.cons.injEq, Except.ok.injEq] at hps
          refine ⟨t, hps.2, ?_, hm⟩
          rw [hi, hps.1.symm]; simp

/-! ## Lemmas on checkOutbox -/

theorem checkOutbox_eq {P : Type} (um : String → Except String P) (f : OutboxFaults)
    (now : Int) (s : Store) (u d : String) (h : uniqueIdx s)
    (h1 : f.lastIdxQuery = false) (h2 : f.getOutboxQuery = false) :
    checkOutbox um f now s u d =
      match execRows (getOutboxRows s now (currentOffset s u d) u d)
          (outboxResultFunc um) ([], 0) with
      | .error e => ⟨.error ("failed to get outbox items: " ++ e), s, []⟩
      | .ok (items, maxItem) =>
        ⟨.ok items, (persistOffset f s u d maxItem).1, (persistOffset f s u d maxItem).2⟩ := by
  obtain ⟨b, hb⟩ := execRows_lastIdx s u d h
  unfold checkOutbox lookupLastIdx selectOutbox
  simp only [h1, h2, hb, Bool.false_eq_true, if_false]

theorem checkOutbox_ok_iff {P : Type} (um : String → Except String P) (f : OutboxFaults)
    (now : Int) (s : Store) (u d : String) (h : uniqueIdx s)
    (h1 : f.lastIdxQuery = false) (h2 : f.getOutboxQuery = false) (items : List P) :
    (checkOutbox um f now s u d).items = .ok items ↔
      (getOutboxRows s now (currentOffset s u d) u d).map (fun r => um r.data)
        = items.map Except.ok := by
  rw [checkOutbox_eq um f now s u d h h1 h2]
  cases hx : execRows (getOutboxRows s now (currentOffset s u d) u d)
      (outboxResultFunc um) ([], 0) with
  | error e =>
    simp only []
    constructor
    · intro hc; cases hc
    · intro hc
      have := (execRows_outbox_iff um _ [] 0 items
        (maxItemOf (getOutboxRows s now (currentOffset s u d) u d) 0)).2
        ⟨items, hc, by simp, rfl⟩
      rw [hx] at this; cases this
  | ok r =>
    obtain ⟨its, m⟩ := r
    simp only []
    obtain ⟨ps, hps, hi, _⟩ := (execRows_outbox_iff um _ [] 0 its m).1 hx
    simp only [List.nil_append] at hi
    subst hi
    constructor
    · intro hc
      injection hc with hc
      rw [← hc]; exact hps
    · intro hc
      rw [hps] at hc
      have : its = items := List.map_injective_iff.2 (fun a b hab => by injection hab) hc
      rw [this]

theorem checkOutbox_store {P : Type} (um : String → Except String P) (f : OutboxFaults)
    (now : Int) (s : Store) (u d : String) (h : uniqueIdx s)
    (h1 : f.lastIdxQuery = false) (h2 : f.getOutboxQuery = false) (items : List P)
    (hok : (checkOutbox um f now s u d).items = .ok items) :
    (checkOutbox um f now s u d).store =
      (persistOffset f s u d
        (maxItemOf (getOutboxRows s now (currentOffset s u d) u d) 0)).1 := by
  rw [checkOutbox_eq um f now s u d h h1 h2] at hok ⊢
  cases hx : execRows (getOutboxRows s now (currentOffset s u d) u d)
      (outboxResultFunc um) ([], 0) with
  | error e => rw [hx] at hok; cases hok
  | ok r =>
    obtain ⟨its, m⟩ := r
    obtain ⟨ps, _, _, hm⟩ := (execRows_outbox_iff um _ [] 0 its m).1 hx
    simp only [hm]

/-! ## Lemmas on the offset upsert -/

theorem find_updateIdx_same (idx : List ConsumerIdxRow) (u d : String) (m : Int)
    (h : idx.any (idxKeyIs u d) = true) :
    ((updateIdx idx u d m).find? (idxKeyIs u d)).map (fun r => r.last_outbox_id) = some m := by
  induction idx with
  | nil => simp at h
  | cons r rest ih =>
    unfold updateIdx
    rw [List.map_cons]
    by_cases hk : idxKeyIs u d r = true
    · have hk2 : idxKeyIs u d (⟨r.user, r.device, m⟩ : ConsumerIdxRow) = true := by
        rw [idxKeyIs_iff] at hk ⊢; exact hk
      rw [if_pos hk, List.find?_cons_of_pos _ hk2]; rfl
    · rw [if_neg hk, List.find?_cons_of_neg _ hk]
      apply ih
      rw [List.any_cons] at h
      simpa [hk] using h

theorem find_updateIdx_other (idx : List ConsumerIdxRow) (u d u2 d2 : String) (m : Int)
    (hne : ¬ (u2 = u ∧ d2 = d)) :
    ((updateIdx idx u d m).find? (idxKeyIs u2 d2)).map (fun r => r.last_outbox_id)
      = (idx.find? (idxKeyIs u2 d2)).map (fun r => r.last_outbox_id) := by
  induction idx with
  | nil => rfl
  | cons r rest ih =>
    unfold updateIdx
    rw [List.map_cons]
    by_cases hk : idxKeyIs u d r = true
    · have hk2 : ¬ idxKeyIs u2 d2 r = true := by
        rw [idxKeyIs_iff] at hk ⊢
        rintro ⟨h1, h2⟩
        exact hne ⟨by rw [← h1, hk.1], by rw [← h2, hk.2]⟩
      have hk3 : ¬ idxKeyIs u2 d2 (⟨r.user, r.device, m⟩ : ConsumerIdxRow) = true := by
        rw [idxKeyIs_iff] at hk2 ⊢; exact hk2
      rw [if_pos hk, List.find?_cons_of_neg _ hk3, List.find?_cons_of_neg _ hk2]
      exact ih
    · rw [if_neg hk]
      by_cases hk2 : idxKeyIs u2 d2 r = true
      · rw [List.find?_cons_of_pos _ hk2, List.find?_cons_of_pos _ hk2]
      · rw [List.find?_cons_of_neg _ hk2, List.find?_cons_of_neg _ hk2]
        exact ih

theorem any_insertOrIgnoreIdx (idx : List ConsumerIdxRow) (u d : String) (m : Int) :
    (insertOrIgnoreIdx idx u d m).any (idxKeyIs u d) = true := by
  unfold insertOrIgnoreIdx
  by_cases h : idx.any (idxKeyIs u d) = true
  · rw [if_pos h]; exact h
  · rw [if_neg h, List.any_append]
    simp [idxKeyIs]

theorem find_insertOrIgnoreIdx_other (idx : List ConsumerIdxRow) (u d u2 d2 : String)
    (m : Int) (hne : ¬ (u2 = u ∧ d2 = d)) :
    (insertOrIgnoreIdx idx u d m).find? (idxKeyIs u2 d2) = idx.find? (idxKeyIs u2 d2) := by
  unfold insertOrIgnoreIdx
  by_cases h : idx.any (idxKeyIs u d) = true
  · rw [if_pos h]
  · rw [if_neg h, List.find?_append]
    have hk : ¬ idxKeyIs u2 d2 (⟨u, d, m⟩ : ConsumerIdxRow) = true := by
      rw [idxKeyIs_iff]; rintro ⟨h1, h2⟩; exact hne ⟨h1.symm, h2.symm⟩
    rw [List.find?_cons_of_neg _ hk]
    simp

theorem offsetOf_persist_same (f : OutboxFaults) (s : Store) (u d : String) (m : Int)
    (h1 : f.insertIdx = false) (h2 : f.updateIdx = false) :
    offsetOf (persistOffset f s u d m).1 u d = some m := by
  unfold persistOffset offsetOf
  simp only [h1, h2, Bool.false_eq_true, if_false]
  exact find_updateIdx_same _ u d m (any_insertOrIgnoreIdx _ u d m)

theorem offsetOf_persist_other (f : OutboxFaults) (s : Store) (u d u2 d2 : String) (m : Int)
    (hne : ¬ (u2 = u ∧ d2 = d)) :
    offsetOf (persistOffset f s u d m).1 u2 d2 = offsetOf s u2 d2 := by
  unfold persistOffset offsetOf
  by_cases h1 : f.insertIdx = true
  · simp only [h1, if_true]
  · by_cases h2 : f.updateIdx = true
    · simp only [h1, h2, Bool.false_eq_true, if_true, if_false]
      rw [find_insertOrIgnoreIdx_other _ u d u2 d2 m hne]
    · simp only [h1, h2, Bool.false_eq_true, if_false]
      rw [find_updateIdx_other _ u d u2 d2 m hne, find_insertOrIgnoreIdx_other _ u d u2 d2 m hne]

theorem persistOffset_outbox (f : OutboxFaults) (s : Store) (u d : String) (m : Int) :
    (persistOffset f s u d m).1.cmd_outbox = s.cmd_outbox := by
  unfold persistOffset
  by_cases h1 : f.insertIdx = true
  · simp only [h1, if_true]
  · by_cases h2 : f.updateIdx = true
    · simp only [h1, h2, Bool.false_eq_true, if_true, if_false]
    · simp only [h1, h2, Bool.false_eq_true, if_false]

theorem updateIdx_keys (idx : List ConsumerIdxRow) (u d : String) (m : Int) :
    (updateIdx idx u d m).map (fun r => (r.user, r.device))
      = idx.map (fun r => (r.user, r.device)) := by
  unfold updateIdx
  rw [List.map_map]
  apply List.map_congr_left
  intro r _
  by_cases hk : idxKeyIs u d r = true
  · simp [hk]
  · simp [hk]

theorem uniqueIdx_persist (f : OutboxFaults) (s : Store) (u d : String) (m : Int)
    (h : uniqueIdx s) : uniqueIdx (persistOffset f s u d m).1 := by
  have hins : ((insertOrIgnoreIdx s.cmd_outbox_consumer_idx u d m).map
      (fun r => (r.user, r.device))).Nodup := by
    unfold insertOrIgnoreIdx
    by_cases ha : s.cmd_outbox_consumer_idx.any (idxKeyIs u d) = true
    · rw [if_pos ha]; exact h
    · rw [if_neg ha, List.map_append]
      apply List.Nodup.append h (by simp)
      intro k hk1 hk2
      simp only [List.map_cons, List.map_nil, List.mem_singleton] at hk2
      subst hk2
      rw [List.mem_map] at hk1
      obtain ⟨r, hr, hrk⟩ := hk1
      apply ha
      rw [List.any_eq_true]
      refine ⟨r, hr, ?_⟩
      rw [idxKeyIs_iff]
      simp only [Prod.mk.injEq] at hrk
      exact hrk
  unfold uniqueIdx persistOffset
  by_cases h1 : f.insertIdx = true
  · simp only [h1, if_true]; exact h
  · by_cases h2 : f.updateIdx = true
    · simp only [h1, h2, Bool.false_eq_true, if_true, if_false]; exact hins
    · simp only [h1, h2, Bool.false_eq_true, if_false]
      rw [updateIdx_keys]; exact hins

/-! ## Lemmas on the selection -/

theorem maxItemOf_ge_init (rows : List OutboxRow) (init : Int) : init ≤ maxItemOf rows init := by
  induction rows generalizing init with
  | nil => exact le_refl _
  | cons r rest ih =>
    unfold maxItemOf
    rw [List.foldl_cons]
    exact le_trans (le_max_left _ _) (ih (max init r.id))

theorem maxItemOf_ge_mem (rows : List OutboxRow) (init : Int) (r : OutboxRow)
    (hr : r ∈ rows) : r.id ≤ maxItemOf rows init := by
  induction rows generalizing init with
  | nil => cases hr
  | cons a rest ih =>
    unfold maxItemOf
    rw [List.foldl_cons]
    rcases List.mem_cons.1 hr with h | h
    · subst h
      exact le_trans (le_max_right _ _) (maxItemOf_ge_init rest _)
    · exact ih (max init a.id) h

theorem maxItemOf_init_or_mem (rows : List OutboxRow) (init : Int) :
    maxItemOf rows init = init ∨ ∃ r ∈ rows, r.id = maxItemOf rows init := by
  induction rows generalizing init with
  | nil => left; rfl
  | cons a rest ih =>
    unfold maxItemOf
    rw [List.foldl_cons]
    rcases ih (max init a.id) with h | ⟨r, hr, h⟩
    · unfold maxItemOf at h
      rw [h]
      rcases max_cases init a.id with ⟨hm, _⟩ | ⟨hm, _⟩
      · left; exact hm
      · right; exact ⟨a, List.mem_cons_self _ _, hm.symm⟩
    · right; exact ⟨r, List.mem_cons_of_mem _ hr, h⟩

theorem checkOutbox_ok_faults {P : Type} (um : String → Except String P) (f : OutboxFaults)
    (now : Int) (s : Store) (u d : String) (items : List P)
    (hok : (checkOutbox um f now s u d).items = .ok items) :
    f.lastIdxQuery = false ∧ f.getOutboxQuery = false := by
  unfold checkOutbox at hok
  cases hl : lookupLastIdx f s u d with
  | error e => rw [hl] at hok; cases hok
  | ok v =>
    obtain ⟨lastIdx, b⟩ := v
    rw [hl] at hok
    simp only [] at hok
    cases hs : selectOutbox um f now s lastIdx u d with
    | error e => rw [hs] at hok; cases hok
    | ok w =>
      constructor
      · cases h1 : f.lastIdxQuery with
        | false => rfl
        | true => simp [lookupLastIdx, h1] at hl
      · cases h2 : f.getOutboxQuery with
        | false => rfl
        | true => simp [selectOutbox, h2] at hs

theorem checkOutbox_error_store {P : Type} (um : String → Except String P) (f : OutboxFaults)
    (now : Int) (s : Store) (u d : String) (e : String)
    (herr : (checkOutbox um f now s u d).items = .error e) :
    (checkOutbox um f now s u d).store = s ∧ (checkOutbox um f now s u d).warnings = [] := by
  unfold checkOutbox at herr ⊢
  cases hl : lookupLastIdx f s u d with
  | error e1 => exact ⟨rfl, rfl⟩
  | ok v =>
    obtain ⟨lastIdx, b⟩ := v
    rw [hl] at herr
    simp only [] at herr ⊢
    cases hs : selectOutbox um f now s lastIdx u d with
    | error e2 => exact ⟨rfl, rfl⟩
    | ok w => rw [hs] at herr; cases herr

/-! ## Claims on the outbox consumer protocol -/

/-- C1 (the code at the failing input): with the offset of (alice, phone1) at 3
and the outbox items 2 and 3 already consumed, one poll with every statement
succeeding selects nothing, returns the empty list, and leaves the persisted
offset at 0, below its value 3 before the poll. -/
theorem checkOutbox_empty_poll_resets_offset :
    offsetOf storeConsumed "alice" "phone1" = some 3
      ∧ getOutboxRows storeConsumed 100 3 "alice" "phone1" = []
      ∧ (checkOutbox rawItem noOutboxFaults 100 storeConsumed "alice" "phone1").items = .ok []
      ∧ offsetOf (checkOutbox rawItem noOutboxFaults 100 storeConsumed "alice" "phone1").store
          "alice" "phone1" = some 0 := by
  refine ⟨by decide, by decide, rfl, by decide⟩

/-- C2 (the code at the failing input): item 5 for alice on the wildcard
device has the date-time text `2030-01-01 00:00:00` as expiry and the offset of
(alice, phone1) is 3.  At the clock 1700000000 the first poll returns item 5 and
sets the offset to 5; the second poll, with nothing added and the same clock,
returns the empty list but sets the offset to 0, not 5; a third poll then
returns item 5 again.  And where the first poll selects nothing (offset 3, items
2 and 3 in the outbox), it sets the offset to 0, so that the second poll returns
items 2 and 3 instead of the empty list. -/
theorem checkOutbox_second_poll_resets_offset :
    (checkOutbox rawItem noOutboxFaults 1700000000 storeDated "alice" "phone1").items
        = .ok ["cmd5"]
      ∧ offsetOf (checkOutbox rawItem noOutboxFaults 1700000000 storeDated "alice"
          "phone1").store "alice" "phone1" = some 5
      ∧ (checkOutbox rawItem noOutboxFaults 1700000000
          (checkOutbox rawItem noOutboxFaults 1700000000 storeDated "alice" "phone1").store
          "alice" "phone1").items = .ok []
      ∧ offsetOf (checkOutbox rawItem noOutboxFaults 1700000000
          (checkOutbox rawItem noOutboxFaults 1700000000 storeDated "alice" "phone1").store
          "alice" "phone1").store "alice" "phone1" = some 0
      ∧ (checkOutbox rawItem noOutboxFaults 1700000000
          (checkOutbox rawItem noOutboxFaults 1700000000
            (checkOutbox rawItem noOutboxFaults 1700000000 storeDated "alice" "phone1").store
            "alice" "phone1").store "alice" "phone1").items = .ok ["cmd5"]
      ∧ (checkOutbox rawItem noOutboxFaults 1700000000 storeDatedConsumed "alice"
          "phone1").items = .ok []
      ∧ (checkOutbox rawItem noOutboxFaults 1700000000
          (checkOutbox rawItem noOutboxFaults 1700000000 storeDatedConsumed "alice"
            "phone1").store "alice" "phone1").items = .ok ["cmd2", "cmd3"] := by
  refine ⟨rfl, by decide, rfl, by decide, rfl, rfl, rfl⟩

theorem offset_after_poll_is_max_selected {P : Type} (um : String → Except String P)
    (f : OutboxFaults) (now : Int) (s : Store) (u d : String) (items : List P)
    (huniq : uniqueIdx s) (hpos : ∀ r ∈ s.cmd_outbox, 0 < r.id)
    (hins : f.insertIdx = false) (hupd : f.updateIdx = false)
    (hok : (checkOutbox um f now s u d).items = .ok items)
    (hsel : getOutboxRows s now (currentOffset s u d) u d ≠ []) :
    ∃ r ∈ getOutboxRows s now (currentOffset s u d) u d,
      offsetOf (checkOutbox um f now s u d).store u d = some r.id
        ∧ ∀ r2 ∈ getOutboxRows s now (currentOffset s u d) u d, r2.id ≤ r.id := by
  obtain ⟨h1, h2⟩ := checkOutbox_ok_faults um f now s u d items hok
  rw [checkOutbox_store um f now s u d huniq h1 h2 items hok,
    offsetOf_persist_same f s u d _ hins hupd]
  rcases maxItemOf_init_or_mem (getOutboxRows s now (currentOffset s u d) u d) 0 with h0 | h0
  · exfalso
    obtain ⟨r, hr⟩ := List.exists_mem_of_ne_nil _ hsel
    have hge := maxItemOf_ge_mem _ 0 r hr
    have hrpos : 0 < r.id := hpos r (List.mem_of_mem_filter hr)
    omega
  · obtain ⟨r, hr, hid⟩ := h0
    refine ⟨r, hr, by rw [hid], ?_⟩
    intro r2 hr2
    rw [hid]
    exact maxItemOf_ge_mem _ 0 r2 hr2

/-- C3 (the code at the failing input): in the spec's example (item 5 for
alice on the wildcard device without expiry, offset of (alice, phone1) at 3) the
`COALESCE` gives the integer 2^62, which the query compares with the text of
`strftime`; an integer is never greater than a text, so the poll selects nothing,
returns the empty list instead of item 5, and leaves the offset at 0 instead of
5; without an offset row the outcome is the same. -/
theorem example_poll_returns_nothing :
    sqlCoalesce .null (.integer (2 ^ 62)) = .integer (2 ^ 62)
      ∧ strftimeEpoch 100 = .text "100"
      ∧ sqlGt (.integer (2 ^ 62)) (strftimeEpoch 100) = false
      ∧ getOutboxRows storeExample 100 3 "alice" "phone1" = []
      ∧ (checkOutbox rawItem noOutboxFaults 100 storeExample "alice" "phone1").items = .ok []
      ∧ offsetOf (checkOutbox rawItem noOutboxFaults 100 storeExample "alice" "phone1").store
          "alice" "phone1" = some 0
      ∧ (checkOutbox rawItem noOutboxFaults 100 storeExampleFresh "alice" "phone1").items
          = .ok []
      ∧ offsetOf (checkOutbox rawItem noOutboxFaults 100 storeExampleFresh "alice"
          "phone1").store "alice" "phone1" = some 0 := by
  refine ⟨rfl, by decide, by decide, by decide, rfl, by decide, rfl, by decide⟩

/-- C4 (the code at the failing input): whatever the clock, the offset, the
user and the device, the `WHERE` clause rejects every row without expiry and
every row whose expiry is an integer, also one later than the clock: the spec's
example item (id 5 above the offset 3, user alice, wildcard device, no expiry) is
not returned, and neither is item 5 with the integer expiry 4000000000 at the
clock 1700000000.  Expiries stored as text are compared with the digits of the
clock byte by byte: at the clock 1700000000, that is 2023-11-14T22:13:20Z, item
4 is returned although its expiry `50`, or `2020-01-01 00:00:00`, is in the
past. -/
theorem expiry_compared_with_clock_text :
    (∀ (now lastIdx id : Int) (u d user device data : String),
        outboxWhere now lastIdx u d ⟨id, user, device, data, .null⟩ = false)
      ∧ (∀ (now lastIdx id e : Int) (u d user device data : String),
          outboxWhere now lastIdx u d ⟨id, user, device, data, .integer e⟩ = false)
      ∧ currentOffset storeExample "alice" "phone1" = 3
      ∧ (checkOutbox rawItem noOutboxFaults 100 storeExample "alice" "phone1").items = .ok []
      ∧ (checkOutbox rawItem noOutboxFaults 1700000000 storeExpired "alice" "phone1").items
          = .ok []
      ∧ strftimeEpoch 1700000000 = .text "1700000000"
      ∧ rfc3339UTC 1700000000 = "2023-11-14T22:13:20Z"
      ∧ (checkOutbox rawItem noOutboxFaults 1700000000 storeExpiredText "alice"
          "phone1").items = .ok ["cmd4", "cmd5"]
      ∧ (checkOutbox rawItem noOutboxFaults 1700000000 storeExpiredDated "alice"
          "phone1").items = .ok ["cmd4", "cmd5"] := by
  refine ⟨?_, ?_, by decide, rfl, rfl, by decide, by decide, rfl, rfl⟩
  · intro now lastIdx id u d user device data
    simp [outboxWhere, sqlCoalesce, strftimeEpoch, sqlGt]
  · intro now lastIdx id e u d user device data
    simp [outboxWhere, sqlCoalesce, strftimeEpoch, sqlGt]

/-- C5 (the code at the failing input): in the spec's example the wildcard item
5 has no expiry and the offsets of alice's phone1 (3) and phone2 (none, so 0)
are below 5.  The poll for phone1 returns the empty list, not the item; it
leaves the outbox rows and the offset of (alice, phone2) as they were; the
following poll for phone2 returns the empty list as well. -/
theorem wildcard_item_without_expiry_reaches_no_device :
    currentOffset storeExample "alice" "phone1" = 3
      ∧ currentOffset storeExample "alice" "phone2" = 0
      ∧ storeExample.cmd_outbox = [⟨5, "alice", "*", "cmd5", .null⟩]
      ∧ (checkOutbox rawItem noOutboxFaults 100 storeExample "alice" "phone1").items = .ok []
      ∧ (checkOutbox rawItem noOutboxFaults 100 storeExample "alice" "phone1").store.cmd_outbox
          = storeExample.cmd_outbox
      ∧ offsetOf (checkOutbox rawItem noOutboxFaults 100 storeExample "alice" "phone1").store
          "alice" "phone2" = offsetOf storeExample "alice" "phone2"
      ∧ (checkOutbox rawItem noOutboxFaults 100
          (checkOutbox rawItem noOutboxFaults 100 storeExample "alice" "phone1").store
          "alice" "phone2").items = .ok [] := by
  refine ⟨by decide, by decide, by decide, rfl, by decide, by decide, rfl⟩

/-- C6 (counterexample): items 7 and 5 are pending for (alice, phone1), both
with an expiry the query accepts, and the store yields item 7 first; the poll
returns the payload of 7 before the payload of 5, so the ids behind the returned
list are not in ascending order. -/
theorem checkOutbox_not_sorted_by_id :
    (getOutboxRows storeUnordered 1700000000 0 "alice" "phone1").map (fun r => (r.id, r.data))
        = [(7, "cmd7"), (5, "cmd5")]
      ∧ (checkOutbox rawItem noOutboxFaults 1700000000 storeUnordered "alice" "phone1").items
          = .ok ["cmd7", "cmd5"]
      ∧ ¬ ((getOutboxRows storeUnordered 1700000000 0 "alice" "phone1").map
            (fun r => r.id)).Pairwise (fun a b => a < b) := by
  refine ⟨by decide, rfl, by decide⟩

/-- C6 (amended): the returned payloads are, position by position, the decoded
payloads of the selected rows in the order the scan of the outbox yields them;
when that scan yields rows in strictly ascending id order, the ids behind the
returned list are strictly ascending. -/
theorem checkOutbox_keeps_scan_order {P : Type} (um : String → Except String P)
    (f : OutboxFaults) (now : Int) (s : Store) (u d : String) (items : List P)
    (huniq : uniqueIdx s)
    (hok : (checkOutbox um f now s u d).items = .ok items)
    (hscan : (s.cmd_outbox.map (fun r => r.id)).Pairwise (fun a b => a < b)) :
    (getOutboxRows s now (currentOffset s u d) u d).map (fun r => um r.data)
        = items.map Except.ok
      ∧ (getOutboxRows s now (currentOffset s u d) u d).Sublist s.cmd_outbox
      ∧ ((getOutboxRows s now (currentOffset s u d) u d).map (fun r => r.id)).Pairwise
          (fun a b => a < b) := by
  obtain ⟨h1, h2⟩ := checkOutbox_ok_faults um f now s u d items hok
  have hsub : (getOutboxRows s now (currentOffset s u d) u d).Sublist s.cmd_outbox :=
    List.filter_sublist _
  exact ⟨(checkOutbox_ok_iff um f now s u d huniq h1 h2 items).1 hok, hsub,
    List.Pairwise.sublist (hsub.map _) hscan⟩

/-- C6 (amended) at a store that yields the pending items 5 and 7 in ascending
order. -/
theorem checkOutbox_keeps_scan_order_witness :
    (getOutboxRows storeOrdered 1700000000 (currentOffset storeOrdered "alice" "phone1")
          "alice" "phone1").map (fun r => rawItem r.data) = ["cmd5", "cmd7"].map Except.ok
      ∧ (getOutboxRows storeOrdered 1700000000 (currentOffset storeOrdered "alice" "phone1")
          "alice" "phone1").Sublist storeOrdered.cmd_outbox
      ∧ ((getOutboxRows storeOrdered 1700000000 (currentOffset storeOrdered "alice" "phone1")
          "alice" "phone1").map (fun r => r.id)).Pairwise (fun a b => a < b) :=
  checkOutbox_keeps_scan_order rawItem noOutboxFaults 1700000000 storeOrdered "alice" "phone1"
    ["cmd5", "cmd7"] (by decide) rfl (by decide)

/-! ## Claims on the `/pub` handler -/

/-- C7 (counterexample): alice's phone1 posts a record that is enriched and
inserted into `location_reports`; the offset lookup of the poll fails, or a
selected payload does not decode; in both runs the handler returns a success
response with an empty message list. -/
theorem pub_succeeds_when_poll_fails :
    (enrichOTLocationData libsFixed "alice" "phone1" recLatLon).err = none
      ∧ (PubEndpoint libsFixed faultsLookup 100 (some "alice") storeExample
          requestAlice).store.location_reports = [⟨1, 1, "phone1", "json"⟩]
      ∧ (checkOutbox libsFixed.jsonUnmarshal faultsLookup.outbox 100
          (PubEndpoint libsFixed faultsLookup 100 (some "alice") storeExample requestAlice).store
          "alice" "phone1").items
          = .error "failed to query last consumed index: statement failed"
      ∧ (PubEndpoint libsFixed faultsLookup 100 (some "alice") storeExample
          requestAlice).response = .ok ⟨[]⟩
      ∧ (PubEndpoint libsFixed noPubFaults 100 (some "alice") storeCorrupt
          requestAlice).store.location_reports = [⟨1, 1, "phone1", "json"⟩]
      ∧ (checkOutbox libsFixed.jsonUnmarshal noOutboxFaults 100
          (PubEndpoint libsFixed noPubFaults 100 (some "alice") storeCorrupt requestAlice).store
          "alice" "phone1").items
          = .error "failed to get outbox items: corrupt outbox item: invalid character"
      ∧ (PubEndpoint libsFixed noPubFaults 100 (some "alice") storeCorrupt
          requestAlice).response = .ok ⟨[]⟩ := by
  refine ⟨rfl, by decide, rfl, rfl, by decide, rfl, rfl⟩

/-- C7 (amended): when the request passes the identity checks, its body decodes
and is enriched, a connection is obtained, the user id is found or created and
the record is inserted, and the outbox poll then fails to read, the handler
returns a success response with an empty message list, keeps the inserted
record, starts the broadcast and logs the warning `failed to check outbox`. -/
theorem pub_poll_failure_gives_empty_success (libs : Libs) (f : PubFaults) (now : Int)
    (verified : Option String) (s : Store) (request : PubRequest) (otdata0 : otLocation)
    (userID : Int) (e : String)
    (hauth : request.User = verified.getD "")
    (huser : request.User ≠ "") (hdev : request.Device ≠ "")
    (hdec : decodeOTJSON libs request.Body = .ok otdata0)
    (henr : (enrichOTLocationData libs request.User request.Device otdata0).err = none)
    (hdb : f.dbGet = false)
    (huid : (getUserID f s request.User).1 = .ok userID)
    (hins : f.reportInsert = false)
    (hpoll : (checkOutbox libs.jsonUnmarshal f.outbox now
        (insertReport (getUserID f s request.User).2 userID request.Device
          (libs.jsonMarshal (enrichOTLocationData libs request.User request.Device
            otdata0).otdata))
        request.User request.Device).items = .error e) :
    (PubEndpoint libs f now verified s request).response = .ok ⟨[]⟩
      ∧ (PubEndpoint libs f now verified s request).store
          = insertReport (getUserID f s request.User).2 userID request.Device
              (libs.jsonMarshal (enrichOTLocationData libs request.User request.Device
                otdata0).otdata)
      ∧ (PubEndpoint libs f now verified s request).bcast
          = some (enrichOTLocationData libs request.User request.Device otdata0).otdata
      ∧ "failed to check outbox" ∈ (PubEndpoint libs f now verified s request).logs := by
  have hst := checkOutbox_error_store _ _ _ _ _ _ _ hpoll
  have hor : ¬ (request.User = "" ∨ request.Device = "") := by
    rintro (h | h)
    · exact huser h
    · exact hdev h
  cases hg : getUserID f s request.User with
  | mk r s1 =>
    rw [hg] at huid hpoll hst
    simp only [] at huid hpoll hst
    subst huid
    unfold PubEndpoint
    rw [if_neg (fun h => h hauth), if_neg hor, hdec]
    simp only [henr, hdb, hins, hg, Bool.false_eq_true, if_false]
    unfold pubAfterInsert
    simp only [hpoll, hst.1]
    exact ⟨trivial, trivial, trivial, by simp⟩

/-- C7 (amended) at alice's request with the offset lookup failing. -/
theorem pub_poll_failure_gives_empty_success_witness :
    (PubEndpoint libsFixed faultsLookup 100 (some "alice") storeExample requestAlice).response
        = .ok ⟨[]⟩
      ∧ (PubEndpoint libsFixed faultsLookup 100 (some "alice") storeExample requestAlice).store
          = insertReport (getUserID faultsLookup storeExample requestAlice.User).2 1
              requestAlice.Device
              (libsFixed.jsonMarshal (enrichOTLocationData libsFixed requestAlice.User
                requestAlice.Device recLatLon).otdata)
      ∧ (PubEndpoint libsFixed faultsLookup 100 (some "alice") storeExample requestAlice).bcast
          = some (enrichOTLocationData libsFixed requestAlice.User requestAlice.Device
              recLatLon).otdata
      ∧ "failed to check outbox"
          ∈ (PubEndpoint libsFixed faultsLookup 100 (some "alice") storeExample
              requestAlice).logs :=
  pub_poll_failure_gives_empty_success libsFixed faultsLookup 100 (some "alice") storeExample
    requestAlice recLatLon 1 "failed to query last consumed index: statement failed"
    rfl (by decide) (by decide) rfl rfl rfl rfl rfl rfl

/-! ## Claims on the broadcast hub -/

/-- C8 (the code at the failing input): channels 1, 2, 3 subscribe in that
order.  Channel 1 unsubscribes: the registry is [2, 3] and channel 1 is closed.
Channel 2 then unsubscribes with its index 1: the registry becomes [2], so
channel 3, still subscribed and open, is dropped, while channel 2, now closed,
stays registered; a broadcast after that panics on the closed channel.  With
only channels 1 and 2 subscribed, the unsubscribe of channel 2 after that of
channel 1 panics in `slices.Delete`. -/
theorem unsubscribe_uses_stale_index :
    hubABC.out = [1, 2, 3]
      ∧ unsubA = ⟨0, 1⟩ ∧ unsubB = ⟨1, 2⟩
      ∧ outOf (unsubscribe unsubA hubABC) = some [2, 3]
      ∧ closedIn (unsubscribe unsubA hubABC) 1 = some true
      ∧ outOf (andThen (unsubscribe unsubA hubABC) (unsubscribe unsubB)) = some [2]
      ∧ closedIn (andThen (unsubscribe unsubA hubABC) (unsubscribe unsubB)) 2 = some true
      ∧ closedIn (andThen (unsubscribe unsubA hubABC) (unsubscribe unsubB)) 3 = some false
      ∧ faultOf (andThen (andThen (unsubscribe unsubA hubABC) (unsubscribe unsubB))
          (fun l => broadcast l recLatLon)) = some (.panic "send on closed channel")
      ∧ outOf (unsubscribe unsubA hubAB) = some [2]
      ∧ faultOf (andThen (unsubscribe unsubA hubAB) (unsubscribe unsubB))
          = some (.panic "slice bounds out of range") := by
  refine ⟨by decide, by decide, by decide, by decide, by decide, by decide, by decide,
    by decide, by decide, by decide, by decide⟩

theorem broadcastLoop_spec (d : otLocation) (out : List Nat) (chans : Nat → Chan)
    (hnodup : out.Nodup)
    (hopen : ∀ c ∈ out, (chans c).closed = false)
    (hfree : ∀ c ∈ out, (chans c).buf.length < (chans c).cap) :
    ∃ chans2, broadcastLoop d out chans = .ok chans2
      ∧ (∀ c ∈ out, chans2 c = ⟨(chans c).buf ++ [d], (chans c).cap, false⟩)
      ∧ (∀ c, c ∉ out → chans2 c = chans c) := by
  induction out generalizing chans with
  | nil => exact ⟨chans, rfl, (fun c hc => by cases hc), (fun c _ => rfl)⟩
  | cons oc rest ih =>
    have ho := hopen oc (List.mem_cons_self _ _)
    have hf := hfree oc (List.mem_cons_self _ _)
    rw [List.nodup_cons] at hnodup
    have hupd : ∀ c ∈ rest,
        Function.update chans oc ⟨(chans oc).buf ++ [d], (chans oc).cap, (chans oc).closed⟩ c
          = chans c := by
      intro c hc
      apply Function.update_noteq
      rintro rfl
      exact hnodup.1 hc
    obtain ⟨chans2, hrun, hin, hnot⟩ := ih
      (Function.update chans oc ⟨(chans oc).buf ++ [d], (chans oc).cap, (chans oc).closed⟩)
      hnodup.2
      (by intro c hc; rw [hupd c hc]; exact hopen c (List.mem_cons_of_mem _ hc))
      (by intro c hc; rw [hupd c hc]; exact hfree c (List.mem_cons_of_mem _ hc))
    refine ⟨chans2, ?_, ?_, ?_⟩
    · unfold broadcastLoop chanSend
      simp only [ho, hf, Bool.false_eq_true, if_false, if_true]
      rw [ho] at hrun
      exact hrun
    · intro c hc
      rcases List.mem_cons.1 hc with h | h
      · subst h
        rw [hnot c hnodup.1, Function.update_same, ← ho]
      · rw [hin c h, hupd c h]
    · intro c hc
      rw [List.mem_cons, not_or] at hc
      rw [hnot c hc.2]
      exact Function.update_noteq hc.1 _ _

/-- C9: on a hub whose registry holds distinct channels, each open and with
free capacity, one `broadcast d` returns, leaves the registry as it was, appends
`d` exactly once to the queue of every registered channel (capacity and open
state kept), and leaves every channel that is not registered as it was. -/
theorem broadcast_fans_out (l : liveLocations) (d : otLocation)
    (hnodup : l.out.Nodup)
    (hopen : ∀ c ∈ l.out, (l.chans c).closed = false)
    (hfree : ∀ c ∈ l.out, (l.chans c).buf.length < (l.chans c).cap) :
    ∃ l2, broadcast l d = .ok l2
      ∧ l2.out = l.out
      ∧ (∀ c ∈ l.out, l2.chans c = ⟨(l.chans c).buf ++ [d], (l.chans c).cap, false⟩)
      ∧ (∀ c, c ∉ l.out → l2.chans c = l.chans c) := by
  obtain ⟨chans2, hrun, hin, hnot⟩ := broadcastLoop_spec d l.out l.chans hnodup hopen hfree
  refine ⟨⟨l.out, chans2⟩, ?_, rfl, hin, hnot⟩
  unfold broadcast
  rw [hrun]

/-- C9 at the hub with the two subscribers 1 and 2. -/
theorem broadcast_fans_out_witness :
    ∃ l2, broadcast hubAB recLatLon = .ok l2
      ∧ l2.out = hubAB.out
      ∧ (∀ c ∈ hubAB.out,
          l2.chans c = ⟨(hubAB.chans c).buf ++ [recLatLon], (hubAB.chans c).cap, false⟩)
      ∧ (∀ c, c ∉ hubAB.out → l2.chans c = hubAB.chans c) :=
  broadcast_fans_out hubAB recLatLon (by decide)
    (by intro c _; rfl) (by intro c _; show (0 : Nat) < 5; decide)

/-! ## Claims on the `/ws/last` connection -/

/-- C10 (the code at the failing input): in any state of the loop with
`ready = false`, an available update is written to the client as a text message
and `ready` stays false; in particular on a fresh connection that has received
nothing, a first update is written at once. -/
theorem update_written_before_ready (libs : Libs) (written : List wsMessage)
    (warnings : List String) (l : otLocation) :
    connStep libs ⟨false, written, warnings⟩ (.update l)
        = ⟨false, written ++ [⟨TextMessage, libs.jsonMarshal (toLiveLocMessage l)⟩], warnings⟩
      ∧ connInit.ready = false
      ∧ (connRun libs connInit [.update l]).written
          = [⟨TextMessage, libs.jsonMarshal (toLiveLocMessage l)⟩]
      ∧ (connRun libs connInit [.update l]).ready = false := by
  exact ⟨rfl, rfl, rfl, rfl⟩

/-! ## Lemmas on records -/

theorem mapSet_ne (m : otLocation) (key k : String) (v : JVal) (h : k ≠ key) :
    mapSet m key v k = m k := by
  unfold mapSet
  rw [if_neg h]

theorem mapSet_eq (m : otLocation) (key : String) (v : JVal) :
    mapSet m key v key = some v := by
  unfold mapSet
  rw [if_pos rfl]

theorem readFloat64_eq_none_iff (m : otLocation) (key : String) :
    readFloat64 m key = none ↔ ∀ v, m key ≠ some (.num v) := by
  unfold readFloat64
  constructor
  · intro h v hv
    rw [hv] at h
    cases h
  · intro h
    split
    · rename_i v hv
      exact absurd hv (h v)
    · rfl

theorem readFloat64_of_num (m : otLocation) (key : String) (v : ℚ)
    (h : m key = some (.num v)) : readFloat64 m key = some v := by
  unfold readFloat64
  rw [h]

theorem readFloat64_congr (m m2 : otLocation) (key : String) (h : m2 key = m key) :
    readFloat64 m2 key = readFloat64 m key := by
  unfold readFloat64
  rw [h]

theorem LatLng_congr (m m2 : otLocation) (hlat : m2 "lat" = m "lat") (hlon : m2 "lon" = m "lon") :
    LatLng m2 = LatLng m := by
  unfold LatLng
  rw [readFloat64_congr m m2 "lat" hlat, readFloat64_congr m m2 "lon" hlon]

theorem Timestamp_congr (m m2 : otLocation) (h : m2 "tst" = m "tst") :
    Timestamp m2 = Timestamp m := by
  unfold Timestamp readInt
  rw [readFloat64_congr m m2 "tst" h]

theorem Topic_congr (libs : Libs) (m m2 : otLocation) (h : m2 "topic" = m "topic") :
    Topic libs m2 = Topic libs m := by
  unfold Topic readString
  rw [h]

theorem LatLng_eq_none (m : otLocation)
    (h : (∀ v, m "lat" ≠ some (.num v)) ∨ (∀ v, m "lon" ≠ some (.num v))) :
    LatLng m = none := by
  unfold LatLng
  rcases h with h | h
  · rw [(readFloat64_eq_none_iff m "lat").2 h]
  · rw [(readFloat64_eq_none_iff m "lon").2 h]
    cases readFloat64 m "lat" <;> rfl

theorem LatLng_of_num (m : otLocation) (lat lon : ℚ)
    (hlat : m "lat" = some (.num lat)) (hlon : m "lon" = some (.num lon)) :
    LatLng m = some (lat, lon) := by
  unfold LatLng
  rw [readFloat64_of_num m "lat" lat hlat, readFloat64_of_num m "lon" lon hlon]

theorem enrichStamp_err (libs : Libs) (user device : String) (o : otLocation) :
    (enrichStamp libs user device o).err = none := by
  unfold enrichStamp
  simp only []
  split
  · split <;> rfl
  · rfl

theorem enrichStamp_otdata (libs : Libs) (user device : String) (o : otLocation) :
    (enrichStamp libs user device o).otdata
      = mapSet (mapSet (mapSet o "username" (.str user)) "device" (.str device)) "_http"
          (.bool true) := by
  unfold enrichStamp
  simp only []
  split
  · split <;> rfl
  · rfl

theorem enrichStamp_get (libs : Libs) (user device : String) (o : otLocation) (k : String)
    (h1 : k ≠ "username") (h2 : k ≠ "device") (h3 : k ≠ "_http") :
    (enrichStamp libs user device o).otdata k = o k := by
  rw [enrichStamp_otdata, mapSet_ne _ _ _ _ h3, mapSet_ne _ _ _ _ h2, mapSet_ne _ _ _ _ h1]

/-! ## Claims on the enrichment -/

/-- C11: when `lat` or `lon` of a decoded record is absent or not a JSON number,
`enrichOTLocationData` returns the bad-request error `lat,lon missing`, leaves
the record as it was and logs nothing; a request whose body decodes to such a
record ends in an error, with the store unchanged (no user row, no location row,
no offset) and no broadcast started; when the request passed the identity checks
that error is the enrichment error with its stack. -/
theorem missing_coordinates_rejected (libs : Libs) (f : PubFaults) (now : Int)
    (verified : Option String) (s : Store) (request : PubRequest) (otdata : otLocation)
    (hmissing : (∀ v, otdata "lat" ≠ some (.num v)) ∨ (∀ v, otdata "lon" ≠ some (.num v)))
    (hdec : decodeOTJSON libs request.Body = .ok otdata) :
    (∀ user device, (enrichOTLocationData libs user device otdata).err
          = some (badRequest "lat,lon missing")
        ∧ (enrichOTLocationData libs user device otdata).otdata = otdata
        ∧ (enrichOTLocationData libs user device otdata).warnings = [])
      ∧ (∃ err, (PubEndpoint libs f now verified s request).response = .error err)
      ∧ (PubEndpoint libs f now verified s request).store = s
      ∧ (PubEndpoint libs f now verified s request).bcast = none
      ∧ (request.User = verified.getD "" → request.User ≠ "" → request.Device ≠ "" →
          (PubEndpoint libs f now verified s request).response
            = .error (.withStack (badRequest "lat,lon missing"))) := by
  have hll := LatLng_eq_none otdata hmissing
  have henr : ∀ user device, enrichOTLocationData libs user device otdata
      = ⟨some (badRequest "lat,lon missing"), otdata, []⟩ := by
    intro user device
    unfold enrichOTLocationData
    rw [hll]
  refine ⟨fun user device => by rw [henr user device]; exact ⟨rfl, rfl, rfl⟩, ?_, ?_, ?_, ?_⟩
  all_goals unfold PubEndpoint
  all_goals simp only [hdec, henr]
  · split
    · exact ⟨_, rfl⟩
    · split
      · exact ⟨_, rfl⟩
      · exact ⟨_, rfl⟩
  · split
    · rfl
    · split <;> rfl
  · split
    · rfl
    · split <;> rfl
  · intro hauth huser hdev
    have hor : ¬ (request.User = "" ∨ request.Device = "") := by
      rintro (h | h)
      · exact huser h
      · exact hdev h
    rw [if_neg (fun h => h hauth), if_neg hor]

/-- C11 at alice's request whose body decodes to a record with `tst` only. -/
theorem missing_coordinates_rejected_witness :
    (∀ user device, (enrichOTLocationData libsZoned user device recNoCoords).err
          = some (badRequest "lat,lon missing")
        ∧ (enrichOTLocationData libsZoned user device recNoCoords).otdata = recNoCoords
        ∧ (enrichOTLocationData libsZoned user device recNoCoords).warnings = [])
      ∧ (∃ err, (PubEndpoint libsZoned noPubFaults 100 (some "alice") storeExample
          (requestWith "nocoords")).response = .error err)
      ∧ (PubEndpoint libsZoned noPubFaults 100 (some "alice") storeExample
          (requestWith "nocoords")).store = storeExample
      ∧ (PubEndpoint libsZoned noPubFaults 100 (some "alice") storeExample
          (requestWith "nocoords")).bcast = none
      ∧ ((requestWith "nocoords").User = (some "alice").getD "" →
          (requestWith "nocoords").User ≠ "" → (requestWith "nocoords").Device ≠ "" →
          (PubEndpoint libsZoned noPubFaults 100 (some "alice") storeExample
            (requestWith "nocoords")).response
            = .error (.withStack (badRequest "lat,lon missing"))) :=
  missing_coordinates_rejected libsZoned noPubFaults 100 (some "alice") storeExample
    (requestWith "nocoords") recNoCoords
    (Or.inl (by intro v h; simp [recNoCoords] at h)) rfl

theorem enrich_no_zone (libs : Libs) (user device : String) (otdata : otLocation) (p : ℚ × ℚ)
    (hll : LatLng otdata = some p) (hz : libs.tzGetZone p.1 p.2 = .ok []) :
    enrichOTLocationData libs user device otdata
      = enrichStamp libs user device
          (mapSet (mapSet otdata "ghash" (.str (libs.geohashEncodeWithPrecision p.1 p.2 7)))
            "pluscode" (.str (libs.olcEncode p.1 p.2 12))) := by
  unfold enrichOTLocationData
  rw [hll]
  simp only [hz]

theorem Timestamp_after_zone (otdata : otLocation) (g c z : JVal) :
    Timestamp (mapSet (mapSet (mapSet otdata "ghash" g) "pluscode" c) "tzname" z)
      = Timestamp otdata := by
  apply Timestamp_congr
  rw [mapSet_ne _ _ _ _ (by decide), mapSet_ne _ _ _ _ (by decide),
    mapSet_ne _ _ _ _ (by decide)]

theorem enrich_zone_no_tst (libs : Libs) (user device : String) (otdata : otLocation)
    (p : ℚ × ℚ) (tz0 loc : String) (rest : List String)
    (hll : LatLng otdata = some p) (hz : libs.tzGetZone p.1 p.2 = .ok (tz0 :: rest))
    (hloc : libs.timeLoadLocation tz0 = .ok loc) (ht : Timestamp otdata = none) :
    enrichOTLocationData libs user device otdata
      = ⟨some (badRequest "missing tst timestamp"),
          mapSet (mapSet (mapSet otdata "ghash"
            (.str (libs.geohashEncodeWithPrecision p.1 p.2 7)))
            "pluscode" (.str (libs.olcEncode p.1 p.2 12))) "tzname" (.str tz0), []⟩ := by
  unfold enrichOTLocationData
  rw [hll]
  simp only [hz, hloc, Timestamp_after_zone, ht]

theorem enrich_zone_tst (libs : Libs) (user device : String) (otdata : otLocation)
    (p : ℚ × ℚ) (tz0 loc : String) (rest : List String) (t : Int)
    (hll : LatLng otdata = some p) (hz : libs.tzGetZone p.1 p.2 = .ok (tz0 :: rest))
    (hloc : libs.timeLoadLocation tz0 = .ok loc) (ht : Timestamp otdata = some t) :
    enrichOTLocationData libs user device otdata
      = enrichStamp libs user device
          (mapSet (mapSet (mapSet (mapSet (mapSet (mapSet otdata "ghash"
            (.str (libs.geohashEncodeWithPrecision p.1 p.2 7)))
            "pluscode" (.str (libs.olcEncode p.1 p.2 12))) "tzname" (.str tz0))
            "isolocal" (.str (libs.formatIn loc layoutRFC3339 t)))
            "disptst" (.str (libs.formatUTC "2006-01-02 03:04:05" t)))
            "isotst" (.str (libs.formatUTC layoutRFC3339 t))) := by
  unfold enrichOTLocationData
  rw [hll]
  simp only [hz, hloc, Timestamp_after_zone, ht]

theorem Timestamp_eq_none_iff (m : otLocation) :
    Timestamp m = none ↔ ∀ v, m "tst" ≠ some (.num v) := by
  unfold Timestamp readInt
  rw [Option.map_eq_none', readFloat64_eq_none_iff]

theorem Timestamp_of_num (m : otLocation) (v : ℚ) (h : m "tst" = some (.num v)) :
    Timestamp m = some (floatToInt v) := by
  unfold Timestamp readInt
  rw [readFloat64_of_num m "tst" v h]
  rfl

theorem enrich_zone_tst_fields (libs : Libs) (user device : String) (otdata : otLocation)
    (lat lon v : ℚ) (tz0 loc : String) (rest : List String)
    (hlat : otdata "lat" = some (.num lat)) (hlon : otdata "lon" = some (.num lon))
    (hz : libs.tzGetZone lat lon = .ok (tz0 :: rest))
    (hloc : libs.timeLoadLocation tz0 = .ok loc)
    (htst : otdata "tst" = some (.num v)) :
    (enrichOTLocationData libs user device otdata).err = none
      ∧ (enrichOTLocationData libs user device otdata).otdata "tzname" = some (.str tz0)
      ∧ (enrichOTLocationData libs user device otdata).otdata "isolocal"
          = some (.str (libs.formatIn loc layoutRFC3339 (floatToInt v)))
      ∧ (enrichOTLocationData libs user device otdata).otdata "isotst"
          = some (.str (libs.formatUTC layoutRFC3339 (floatToInt v)))
      ∧ (enrichOTLocationData libs user device otdata).otdata "disptst"
          = some (.str (libs.formatUTC "2006-01-02 03:04:05" (floatToInt v))) := by
  have hll := LatLng_of_num otdata lat lon hlat hlon
  rw [enrich_zone_tst libs user device otdata (lat, lon) tz0 loc rest (floatToInt v) hll hz
    hloc (Timestamp_of_num otdata v htst)]
  refine ⟨enrichStamp_err _ _ _ _, ?_, ?_, ?_, ?_⟩
  · rw [enrichStamp_get _ _ _ _ _ (by decide) (by decide) (by decide),
      mapSet_ne _ _ _ _ (by decide), mapSet_ne _ _ _ _ (by decide),
      mapSet_ne _ _ _ _ (by decide), mapSet_eq]
  · rw [enrichStamp_get _ _ _ _ _ (by decide) (by decide) (by decide),
      mapSet_ne _ _ _ _ (by decide), mapSet_ne _ _ _ _ (by decide), mapSet_eq]
  · rw [enrichStamp_get _ _ _ _ _ (by decide) (by decide) (by decide), mapSet_eq]
  · rw [enrichStamp_get _ _ _ _ _ (by decide) (by decide) (by decide),
      mapSet_ne _ _ _ _ (by decide), mapSet_eq]

/-- C13: for a record with numeric `lat` and `lon` whose zone lookup returns
without error: (a) if the lookup returns no zone, enrichment succeeds, whatever
`tst` is, and the keys `tzname`, `isolocal`, `isotst`, `disptst` keep the value
they had in the input (none if they were absent); (b) if it returns a first zone
that loads, enrichment fails with the bad-request error `missing tst timestamp`
exactly when `tst` is absent or not a JSON number, and for a numeric `tst` it
succeeds, sets `tzname` to the first zone and sets `isolocal`, `isotst` and
`disptst` to the formatted instant `time.Unix(int(tst), 0)`. -/
theorem timestamp_required_only_with_zone (libs : Libs) (user device : String)
    (otdata : otLocation) (lat lon : ℚ)
    (hlat : otdata "lat" = some (.num lat)) (hlon : otdata "lon" = some (.num lon)) :
    (libs.tzGetZone lat lon = .ok [] →
        (enrichOTLocationData libs user device otdata).err = none
          ∧ ∀ k, k = "tzname" ∨ k = "isolocal" ∨ k = "isotst" ∨ k = "disptst" →
              (enrichOTLocationData libs user device otdata).otdata k = otdata k)
      ∧ (∀ tz0 rest loc, libs.tzGetZone lat lon = .ok (tz0 :: rest) →
          libs.timeLoadLocation tz0 = .ok loc →
          ((enrichOTLocationData libs user device otdata).err
              = some (badRequest "missing tst timestamp")
            ↔ ∀ v, otdata "tst" ≠ some (.num v))
          ∧ (∀ v, otdata "tst" = some (.num v) →
              (enrichOTLocationData libs user device otdata).err = none
                ∧ (enrichOTLocationData libs user device otdata).otdata "tzname"
                    = some (.str tz0)
                ∧ (enrichOTLocationData libs user device otdata).otdata "isolocal"
                    = some (.str (libs.formatIn loc layoutRFC3339 (floatToInt v)))
                ∧ (enrichOTLocationData libs user device otdata).otdata "isotst"
                    = some (.str (libs.formatUTC layoutRFC3339 (floatToInt v)))
                ∧ (enrichOTLocationData libs user device otdata).otdata "disptst"
                    = some (.str (libs.formatUTC "2006-01-02 03:04:05" (floatToInt v))))) := by
  have hll := LatLng_of_num otdata lat lon hlat hlon
  constructor
  · intro hz
    rw [enrich_no_zone libs user device otdata (lat, lon) hll hz]
    refine ⟨enrichStamp_err _ _ _ _, ?_⟩
    intro k hk
    rcases hk with h | h | h | h <;> subst h <;>
      rw [enrichStamp_get _ _ _ _ _ (by decide) (by decide) (by decide),
        mapSet_ne _ _ _ _ (by decide), mapSet_ne _ _ _ _ (by decide)]
  · intro tz0 rest loc hz hloc
    constructor
    · constructor
      · intro herr v hv
        rw [enrich_zone_tst libs user device otdata (lat, lon) tz0 loc rest (floatToInt v) hll hz
          hloc (Timestamp_of_num otdata v hv), enrichStamp_err] at herr
        cases herr
      · intro hno
        rw [enrich_zone_no_tst libs user device otdata (lat, lon) tz0 loc rest hll hz hloc
          ((Timestamp_eq_none_iff otdata).2 hno)]
    · intro v hv
      exact enrich_zone_tst_fields libs user device otdata lat lon v tz0 loc rest hlat hlon hz
        hloc hv

/-- C13 at a record without `tst` where no zone is found, and at the spec's
example record and a record without `tst` where the zone `Etc/UTC` is found. -/
theorem timestamp_required_only_with_zone_witness :
    ((enrichOTLocationData libsFixed "alice" "phone1" recLatLon).err = none
        ∧ ∀ k, k = "tzname" ∨ k = "isolocal" ∨ k = "isotst" ∨ k = "disptst" →
            (enrichOTLocationData libsFixed "alice" "phone1" recLatLon).otdata k = recLatLon k)
      ∧ ((enrichOTLocationData libsZoned "alice" "phone1" recFull).err = none
        ∧ (enrichOTLocationData libsZoned "alice" "phone1" recFull).otdata "tzname"
            = some (.str "Etc/UTC")
        ∧ (enrichOTLocationData libsZoned "alice" "phone1" recFull).otdata "isolocal"
            = some (.str (libsZoned.formatIn "Etc/UTC" layoutRFC3339 (floatToInt 1700000000)))
        ∧ (enrichOTLocationData libsZoned "alice" "phone1" recFull).otdata "isotst"
            = some (.str (libsZoned.formatUTC layoutRFC3339 (floatToInt 1700000000)))
        ∧ (enrichOTLocationData libsZoned "alice" "phone1" recFull).otdata "disptst"
            = some (.str (libsZoned.formatUTC "2006-01-02 03:04:05" (floatToInt 1700000000))))
      ∧ (enrichOTLocationData libsZoned "alice" "phone1" recLatLon).err
          = some (badRequest "missing tst timestamp") :=
  ⟨(timestamp_required_only_with_zone libsFixed "alice" "phone1" recLatLon 1 2 rfl rfl).1 rfl,
    ((timestamp_required_only_with_zone libsZoned "alice" "phone1" recFull (377749 / 10000)
      (-1224194 / 10000) rfl rfl).2 "Etc/UTC" [] "Etc/UTC" rfl rfl).2 1700000000 rfl,
    (((timestamp_required_only_with_zone libsZoned "alice" "phone1" recLatLon 1 2 rfl rfl).2
      "Etc/UTC" [] "Etc/UTC" rfl rfl).1).2 (by intro v h; simp [recLatLon] at h)⟩

/-! ## Claims on the order of persisting and broadcasting -/

theorem persistOffset_reports (f : OutboxFaults) (s : Store) (u d : String) (m : Int) :
    (persistOffset f s u d m).1.location_reports = s.location_reports := by
  unfold persistOffset
  split
  · rfl
  · split <;> rfl

theorem checkOutbox_reports {P : Type} (um : String → Except String P) (f : OutboxFaults)
    (now : Int) (s : Store) (u d : String) :
    (checkOutbox um f now s u d).store.location_reports = s.location_reports := by
  unfold checkOutbox
  cases hl : lookupLastIdx f s u d with
  | error e => rfl
  | ok v =>
    obtain ⟨lastIdx, b⟩ := v
    simp only []
    cases hs : selectOutbox um f now s lastIdx u d with
    | error e => rfl
    | ok w =>
      obtain ⟨items, m⟩ := w
      exact persistOffset_reports f s u d m

theorem pubAfterInsert_bcast (libs : Libs) (f : PubFaults) (now : Int) (s : Store)
    (request : PubRequest) (otdata : otLocation) (logs : List String) :
    (pubAfterInsert libs f now s request otdata logs).bcast = some otdata
      ∧ (pubAfterInsert libs f now s request otdata logs).store.location_reports
          = s.location_reports := by
  unfold pubAfterInsert
  simp only []
  split
  · exact ⟨rfl, checkOutbox_reports _ _ _ _ _ _⟩
  · exact ⟨rfl, checkOutbox_reports _ _ _ _ _ _⟩

theorem pub_reaches_insert (libs : Libs) (f : PubFaults) (now : Int)
    (verified : Option String) (s : Store) (request : PubRequest) (otdata0 : otLocation)
    (userID : Int) (s1 : Store)
    (hauth : ¬ request.User ≠ verified.getD "")
    (hemp : ¬ (request.User = "" ∨ request.Device = ""))
    (hdec : decodeOTJSON libs request.Body = .ok otdata0)
    (henr : (enrichOTLocationData libs request.User request.Device otdata0).err = none)
    (hdb : f.dbGet = false)
    (huid : getUserID f s request.User = (.ok userID, s1))
    (hins : f.reportInsert = false) :
    PubEndpoint libs f now verified s request
      = pubAfterInsert libs f now
          (insertReport s1 userID request.Device
            (libs.jsonMarshal (enrichOTLocationData libs request.User request.Device
              otdata0).otdata))
          request (enrichOTLocationData libs request.User request.Device otdata0).otdata
          (enrichOTLocationData libs request.User request.Device otdata0).warnings := by
  unfold PubEndpoint
  rw [if_neg hauth, if_neg hemp, hdec]
  simp only [henr, hdb, hins, huid, Bool.false_eq_true, if_false]

/-- C14: whenever the handler starts a broadcast, the request passed the
identity checks, its body was decoded and enriched, a connection was obtained,
the user id was found or created and the insert into `location_reports`
succeeded, the record broadcast is the enriched record, and the table holds the
row of that record as its last row; if decoding, enrichment, obtaining a
connection, the user lookup or the insert fails, no broadcast is started. -/
theorem broadcast_only_after_insert (libs : Libs) (f : PubFaults) (now : Int)
    (verified : Option String) (s : Store) (request : PubRequest) :
    (∀ d, (PubEndpoint libs f now verified s request).bcast = some d →
        ∃ otdata0 userID,
          decodeOTJSON libs request.Body = .ok otdata0
            ∧ (enrichOTLocationData libs request.User request.Device otdata0).err = none
            ∧ d = (enrichOTLocationData libs request.User request.Device otdata0).otdata
            ∧ f.dbGet = false
            ∧ (getUserID f s request.User).1 = .ok userID
            ∧ f.reportInsert = false
            ∧ (PubEndpoint libs f now verified s request).store.location_reports
                = (getUserID f s request.User).2.location_reports
                    ++ [⟨nextId ((getUserID f s request.User).2.location_reports.map
                          (fun r => r.id)), userID, request.Device, libs.jsonMarshal d⟩])
      ∧ ((∃ e, decodeOTJSON libs request.Body = .error e) →
          (PubEndpoint libs f now verified s request).bcast = none)
      ∧ ((∃ otdata0 e, decodeOTJSON libs request.Body = .ok otdata0
            ∧ (enrichOTLocationData libs request.User request.Device otdata0).err = some e) →
          (PubEndpoint libs f now verified s request).bcast = none)
      ∧ (f.dbGet = true → (PubEndpoint libs f now verified s request).bcast = none)
      ∧ ((∃ e, (getUserID f s request.User).1 = .error e) →
          (PubEndpoint libs f now verified s request).bcast = none)
      ∧ (f.reportInsert = true → (PubEndpoint libs f now verified s request).bcast = none) := by
  have key : ∀ d, (PubEndpoint libs f now verified s request).bcast = some d →
      ∃ otdata0 userID,
        decodeOTJSON libs request.Body = .ok otdata0
          ∧ (enrichOTLocationData libs request.User request.Device otdata0).err = none
          ∧ d = (enrichOTLocationData libs request.User request.Device otdata0).otdata
          ∧ f.dbGet = false
          ∧ (getUserID f s request.User).1 = .ok userID
          ∧ f.reportInsert = false
          ∧ (PubEndpoint libs f now verified s request).store.location_reports
              = (getUserID f s request.User).2.location_reports
                  ++ [⟨nextId ((getUserID f s request.User).2.location_reports.map
                        (fun r => r.id)), userID, request.Device, libs.jsonMarshal d⟩] := by
    intro d h
    by_cases hauth : request.User ≠ verified.getD ""
    · unfold PubEndpoint at h
      rw [if_pos hauth] at h
      cases h
    by_cases hemp : request.User = "" ∨ request.Device = ""
    · unfold PubEndpoint at h
      rw [if_neg hauth, if_pos hemp] at h
      cases h
    cases hdec : decodeOTJSON libs request.Body with
    | error e =>
      unfold PubEndpoint at h
      rw [if_neg hauth, if_neg hemp, hdec] at h
      cases h
    | ok otdata0 =>
      cases henr : (enrichOTLocationData libs request.User request.Device otdata0).err with
      | some err =>
        unfold PubEndpoint at h
        rw [if_neg hauth, if_neg hemp, hdec] at h
        simp only [henr] at h
        cases h
      | none =>
        cases hdb : f.dbGet with
        | true =>
          unfold PubEndpoint at h
          rw [if_neg hauth, if_neg hemp, hdec] at h
          simp only [henr, hdb, if_true] at h
          cases h
        | false =>
          cases huid : getUserID f s request.User with
          | mk res s1 =>
            cases res with
            | error e =>
              unfold PubEndpoint at h
              rw [if_neg hauth, if_neg hemp, hdec] at h
              simp only [henr, hdb, huid, Bool.false_eq_true, if_false] at h
              cases h
            | ok userID =>
              cases hins : f.reportInsert with
              | true =>
                unfold PubEndpoint at h
                rw [if_neg hauth, if_neg hemp, hdec] at h
                simp only [henr, hdb, huid, hins, Bool.false_eq_true, if_false, if_true] at h
                cases h
              | false =>
                have hform := pub_reaches_insert libs f now verified s request otdata0 userID s1
                  hauth hemp hdec henr hdb huid hins
                rw [hform] at h ⊢
                obtain ⟨hb, hs⟩ := pubAfterInsert_bcast libs f now
                  (insertReport s1 userID request.Device
                    (libs.jsonMarshal (enrichOTLocationData libs request.User request.Device
                      otdata0).otdata))
                  request (enrichOTLocationData libs request.User request.Device otdata0).otdata
                  (enrichOTLocationData libs request.User request.Device otdata0).warnings
                rw [hb] at h
                injection h with h
                refine ⟨otdata0, userID, rfl, henr, h.symm, rfl, rfl, rfl, ?_⟩
                rw [hs, ← h]
                rfl
  refine ⟨key, ?_, ?_, ?_, ?_, ?_⟩
  · rintro ⟨e, he⟩
    cases hb : (PubEndpoint libs f now verified s request).bcast with
    | none => rfl
    | some d =>
      obtain ⟨o, _, hd, _⟩ := key d hb
      rw [he] at hd
      cases hd
  · rintro ⟨otdata0, e, hd0, he⟩
    cases hb : (PubEndpoint libs f now verified s request).bcast with
    | none => rfl
    | some d =>
      obtain ⟨o, _, hd, hn, _⟩ := key d hb
      rw [hd0] at hd
      injection hd with hd
      rw [← hd, he] at hn
      cases hn
  · intro hdb
    cases hb : (PubEndpoint libs f now verified s request).bcast with
    | none => rfl
    | some d =>
      obtain ⟨_, _, _, _, _, hn, _⟩ := key d hb
      rw [hdb] at hn
      cases hn
  · rintro ⟨e, he⟩
    cases hb : (PubEndpoint libs f now verified s request).bcast with
    | none => rfl
    | some d =>
      obtain ⟨_, _, _, _, _, _, hn, _⟩ := key d hb
      rw [he] at hn
      cases hn
  · intro hins
    cases hb : (PubEndpoint libs f now verified s request).bcast with
    | none => rfl
    | some d =>
      obtain ⟨_, _, _, _, _, _, _, hn, _⟩ := key d hb
      rw [hins] at hn
      cases hn

/-- C14 at alice's request: with the spec's example as body the enriched record
is broadcast and its row is the last of `location_reports`; with a body that
does not decode, and with a failing insert, nothing is broadcast. -/
theorem broadcast_only_after_insert_witness :
    (∃ otdata0 userID,
        decodeOTJSON libsZoned (requestWith "full").Body = .ok otdata0
          ∧ (enrichOTLocationData libsZoned (requestWith "full").User (requestWith "full").Device
              otdata0).err = none
          ∧ (enrichOTLocationData libsZoned "alice" "phone1" recFull).otdata
              = (enrichOTLocationData libsZoned (requestWith "full").User
                  (requestWith "full").Device otdata0).otdata
          ∧ noPubFaults.dbGet = false
          ∧ (getUserID noPubFaults storeExample (requestWith "full").User).1 = .ok userID
          ∧ noPubFaults.reportInsert = false
          ∧ (PubEndpoint libsZoned noPubFaults 100 (some "alice") storeExample
              (requestWith "full")).store.location_reports
              = (getUserID noPubFaults storeExample
                    (requestWith "full").User).2.location_reports
                  ++ [⟨nextId ((getUserID noPubFaults storeExample
                        (requestWith "full").User).2.location_reports.map (fun r => r.id)),
                      userID, (requestWith "full").Device,
                      libsZoned.jsonMarshal
                        (enrichOTLocationData libsZoned "alice" "phone1" recFull).otdata⟩])
      ∧ (PubEndpoint libsZoned noPubFaults 100 (some "alice") storeExample
          (requestWith "corrupt")).bcast = none
      ∧ (PubEndpoint libsZoned ⟨false, false, false, true, noOutboxFaults⟩ 100 (some "alice")
          storeExample (requestWith "full")).bcast = none :=
  ⟨(broadcast_only_after_insert libsZoned noPubFaults 100 (some "alice") storeExample
      (requestWith "full")).1 (enrichOTLocationData libsZoned "alice" "phone1" recFull).otdata rfl,
    (broadcast_only_after_insert libsZoned noPubFaults 100 (some "alice") storeExample
      (requestWith "corrupt")).2.1 ⟨_, rfl⟩,
    (broadcast_only_after_insert libsZoned ⟨false, false, false, true, noOutboxFaults⟩ 100
      (some "alice") storeExample (requestWith "full")).2.2.2.2.2 rfl⟩

/-! ## Claims on repeated enrichment -/

theorem stamp_twice (o : otLocation) (u d h g c : JVal) :
    mapSet (mapSet (mapSet (mapSet (mapSet
        (mapSet (mapSet (mapSet (mapSet (mapSet o "ghash" g) "pluscode" c)
          "username" u) "device" d) "_http" h)
        "ghash" g) "pluscode" c) "username" u) "device" d) "_http" h
      = mapSet (mapSet (mapSet (mapSet (mapSet o "ghash" g) "pluscode" c)
          "username" u) "device" d) "_http" h := by
  funext k
  simp only [mapSet]
  split_ifs <;> rfl

theorem stamp_zone_twice (o : otLocation) (u d h g c z l p i : JVal) :
    mapSet (mapSet (mapSet (mapSet (mapSet (mapSet (mapSet (mapSet (mapSet
        (mapSet (mapSet (mapSet (mapSet (mapSet (mapSet (mapSet (mapSet (mapSet o
          "ghash" g) "pluscode" c) "tzname" z) "isolocal" l) "disptst" p) "isotst" i)
          "username" u) "device" d) "_http" h)
        "ghash" g) "pluscode" c) "tzname" z) "isolocal" l) "disptst" p) "isotst" i)
          "username" u) "device" d) "_http" h
      = mapSet (mapSet (mapSet (mapSet (mapSet (mapSet (mapSet (mapSet (mapSet o
          "ghash" g) "pluscode" c) "tzname" z) "isolocal" l) "disptst" p) "isotst" i)
          "username" u) "device" d) "_http" h := by
  funext k
  simp only [mapSet]
  split_ifs <;> rfl

/-- C20: when `enrichOTLocationData` succeeds on a record, the keys `lat`,
`lon`, `tst` and `topic` of the record are as before, and a second application
with the same user and device to the enriched record (the libraries being
functions of their arguments) succeeds as well and returns a record equal to the
enriched one. -/
theorem enrichment_idempotent (libs : Libs) (user device : String) (otdata : otLocation)
    (hok : (enrichOTLocationData libs user device otdata).err = none) :
    (∀ k, k = "lat" ∨ k = "lon" ∨ k = "tst" ∨ k = "topic" →
        (enrichOTLocationData libs user device otdata).otdata k = otdata k)
      ∧ (enrichOTLocationData libs user device
          (enrichOTLocationData libs user device otdata).otdata).err = none
      ∧ (enrichOTLocationData libs user device
          (enrichOTLocationData libs user device otdata).otdata).otdata
          = (enrichOTLocationData libs user device otdata).otdata := by
  cases hll : LatLng otdata with
  | none =>
    unfold enrichOTLocationData at hok
    rw [hll] at hok
    cases hok
  | some p =>
    cases hz : libs.tzGetZone p.1 p.2 with
    | error e =>
      unfold enrichOTLocationData at hok
      rw [hll] at hok
      simp only [hz] at hok
      cases hok
    | ok tzs =>
      cases tzs with
      | nil =>
        have hform := enrich_no_zone libs user device otdata p hll hz
        have hkeys : ∀ k, k = "lat" ∨ k = "lon" ∨ k = "tst" ∨ k = "topic" →
            (enrichOTLocationData libs user device otdata).otdata k = otdata k := by
          intro k hk
          rw [hform]
          rcases hk with h | h | h | h <;> subst h <;>
            rw [enrichStamp_get _ _ _ _ _ (by decide) (by decide) (by decide),
              mapSet_ne _ _ _ _ (by decide), mapSet_ne _ _ _ _ (by decide)]
        have hll2 : LatLng (enrichOTLocationData libs user device otdata).otdata = some p := by
          rw [LatLng_congr otdata _ (hkeys "lat" (Or.inl rfl)) (hkeys "lon" (Or.inr (Or.inl rfl)))]
          exact hll
        have hform2 := enrich_no_zone libs user device
          (enrichOTLocationData libs user device otdata).otdata p hll2 hz
        refine ⟨hkeys, ?_, ?_⟩
        · rw [hform2]; exact enrichStamp_err _ _ _ _
        · rw [hform2, enrichStamp_otdata, hform, enrichStamp_otdata]
          exact stamp_twice _ _ _ _ _ _
      | cons tz0 rest =>
        cases hloc : libs.timeLoadLocation tz0 with
        | error e =>
          unfold enrichOTLocationData at hok
          rw [hll] at hok
          simp only [hz, hloc] at hok
          cases hok
        | ok loc =>
          cases ht : Timestamp otdata with
          | none =>
            rw [enrich_zone_no_tst libs user device otdata p tz0 loc rest hll hz hloc ht] at hok
            cases hok
          | some t =>
            have hform := enrich_zone_tst libs user device otdata p tz0 loc rest t hll hz hloc ht
            have hkeys : ∀ k, k = "lat" ∨ k = "lon" ∨ k = "tst" ∨ k = "topic" →
                (enrichOTLocationData libs user device otdata).otdata k = otdata k := by
              intro k hk
              rw [hform]
              rcases hk with h | h | h | h <;> subst h <;>
                rw [enrichStamp_get _ _ _ _ _ (by decide) (by decide) (by decide),
                  mapSet_ne _ _ _ _ (by decide), mapSet_ne _ _ _ _ (by decide),
                  mapSet_ne _ _ _ _ (by decide), mapSet_ne _ _ _ _ (by decide),
                  mapSet_ne _ _ _ _ (by decide), mapSet_ne _ _ _ _ (by decide)]
            have hll2 : LatLng (enrichOTLocationData libs user device otdata).otdata
                = some p := by
              rw [LatLng_congr otdata _ (hkeys "lat" (Or.inl rfl))
                (hkeys "lon" (Or.inr (Or.inl rfl)))]
              exact hll
            have ht2 : Timestamp (enrichOTLocationData libs user device otdata).otdata
                = some t := by
              rw [Timestamp_congr otdata _ (hkeys "tst" (Or.inr (Or.inr (Or.inl rfl))))]
              exact ht
            have hform2 := enrich_zone_tst libs user device
              (enrichOTLocationData libs user device otdata).otdata p tz0 loc rest t hll2 hz
              hloc ht2
            refine ⟨hkeys, ?_, ?_⟩
            · rw [hform2]; exact enrichStamp_err _ _ _ _
            · rw [hform2, enrichStamp_otdata, hform, enrichStamp_otdata]
              exact stamp_zone_twice _ _ _ _ _ _ _ _ _ _

/-- C20 at the spec's example record with the zone `Etc/UTC`. -/
theorem enrichment_idempotent_witness :
    (∀ k, k = "lat" ∨ k = "lon" ∨ k = "tst" ∨ k = "topic" →
        (enrichOTLocationData libsZoned "alice" "phone1" recFull).otdata k = recFull k)
      ∧ (enrichOTLocationData libsZoned "alice" "phone1"
          (enrichOTLocationData libsZoned "alice" "phone1" recFull).otdata).err = none
      ∧ (enrichOTLocationData libsZoned "alice" "phone1"
          (enrichOTLocationData libsZoned "alice" "phone1" recFull).otdata).otdata
          = (enrichOTLocationData libsZoned "alice" "phone1" recFull).otdata :=
  enrichment_idempotent libsZoned "alice" "phone1" recFull rfl

/-! ## Claims on the timestamp fields -/

theorem layoutRFC3339_length : layoutRFC3339.length = 25 := by decide

theorem formatLayout_rfc3339 (k : Clock) :
    formatLayout k 25 layoutRFC3339.toList
      = appendInt k.year 4 ++ ['-'] ++ appendInt k.month 2 ++ ['-'] ++ appendInt k.day 2
        ++ ['T'] ++ appendInt k.hour 2 ++ [':'] ++ appendInt k.minute 2 ++ [':']
        ++ appendInt k.second 2 ++ ['Z'] := by
  simp [layoutRFC3339, formatLayout, startsWith]

theorem goFormatUTC_rfc3339 (unix : Int) :
    goFormatUTC layoutRFC3339 unix = rfc3339UTC unix := by
  unfold goFormatUTC rfc3339UTC
  rw [layoutRFC3339_length, formatLayout_rfc3339]

theorem display_length : "2006-01-02 03:04:05".length = 19 := by decide

theorem formatLayout_display (k : Clock) :
    formatLayout k 19 "2006-01-02 03:04:05".toList
      = appendInt k.year 4 ++ ['-'] ++ appendInt k.month 2 ++ ['-'] ++ appendInt k.day 2
        ++ [' '] ++ appendInt (hour12 k.hour) 2 ++ [':'] ++ appendInt k.minute 2 ++ [':']
        ++ appendInt k.second 2 := by
  simp [formatLayout, startsWith]

theorem doy_bounds (a b c d e f g : Int) (ha : 0 ≤ a) (ha2 : a < 146097)
    (hc : c = a / 1460) (hd : d = a / 36524) (he : e = a / 146096)
    (hb : b = (a - c + d - e) / 365) (hf : f = b / 4) (hg : g = b / 100) :
    0 ≤ a - (365 * b + f - g) ∧ a - (365 * b + f - g) ≤ 365 := by
  have hdr : 0 ≤ d ∧ d ≤ 4 := by omega
  have hgr : 0 ≤ g ∧ g ≤ 3 := by omega
  obtain ⟨hd0, hd4⟩ := hdr
  obtain ⟨hg0, hg3⟩ := hgr
  interval_cases d <;> interval_cases g <;> omega

theorem daysFromCivil_of_parts (era yoe doy mp : Int)
    (hy : 0 ≤ yoe ∧ yoe ≤ 399) (hmp : 0 ≤ mp ∧ mp ≤ 11) :
    daysFromCivil (yoe + era * 400 + (if (if mp < 10 then mp + 3 else mp - 9) ≤ 2 then 1 else 0))
        (if mp < 10 then mp + 3 else mp - 9) (doy - (153 * mp + 2) / 5 + 1)
      = era * 146097 + (yoe * 365 + yoe / 4 - yoe / 100 + doy) - 719468 := by
  unfold daysFromCivil
  simp only []
  by_cases h : mp < 10
  · have hm : ¬ (mp + 3 ≤ 2) := by omega
    have hm2 : mp + 3 > 2 := by omega
    simp only [h, if_true, hm, if_false, hm2, add_zero]
    have e1 : (yoe + era * 400) / 400 = era := by omega
    have e2 : (yoe + era * 400) % 400 = yoe := by omega
    have e3 : mp + 3 - 3 = mp := by omega
    rw [e1, e2, e3]
    omega
  · have hm : mp - 9 ≤ 2 := by omega
    have hm2 : ¬ (mp - 9 > 2) := by omega
    simp only [h, if_false, hm, if_true, hm2]
    have e0 : yoe + era * 400 + 1 - 1 = yoe + era * 400 := by omega
    have e1 : (yoe + era * 400) / 400 = era := by omega
    have e2 : (yoe + era * 400) % 400 = yoe := by omega
    have e3 : mp - 9 + 9 = mp := by omega
    rw [e0, e1, e2, e3]
    omega

theorem civil_roundtrip (z : Int) :
    daysFromCivil (civilFromDays z).1 (civilFromDays z).2.1 (civilFromDays z).2.2 = z
      ∧ 1 ≤ (civilFromDays z).2.1 ∧ (civilFromDays z).2.1 ≤ 12
      ∧ 1 ≤ (civilFromDays z).2.2 ∧ (civilFromDays z).2.2 ≤ 31 := by
  unfold civilFromDays
  simp only []
  generalize hdoe : (z + 719468) % 146097 = doe
  generalize hera : (z + 719468) / 146097 = era
  have h1 : 0 ≤ doe ∧ doe < 146097 := by omega
  have hz : z + 719468 = era * 146097 + doe := by omega
  generalize hyoe : (doe - doe / 1460 + doe / 36524 - doe / 146096) / 365 = yoe
  have hy := doy_bounds doe yoe _ _ _ _ _ h1.1 h1.2 rfl rfl rfl hyoe.symm rfl rfl
  have hyb : 0 ≤ yoe ∧ yoe ≤ 399 := by omega
  generalize hdoy : doe - (365 * yoe + yoe / 4 - yoe / 100) = doy at hy ⊢
  generalize hmp : (5 * doy + 2) / 153 = mp
  have hmpb : 0 ≤ mp ∧ mp ≤ 11 := by omega
  refine ⟨?_, ?_, ?_, ?_, ?_⟩
  · rw [daysFromCivil_of_parts era yoe doy mp hyb hmpb]
    omega
  · split_ifs <;> omega
  · split_ifs <;> omega
  · omega
  · omega

theorem utcClock_shows (unix : Int) : clockShows (utcClock unix) unix := by
  obtain ⟨hrt, hm1, hm2, hd1, hd2⟩ := civil_roundtrip (unix / 86400)
  unfold clockShows utcClock
  simp only []
  rw [hrt]
  refine ⟨hm1, hm2, hd1, hd2, ?_, ?_, ?_, ?_, ?_, ?_, ?_⟩ <;> omega

theorem floatToInt_truncates (v : ℚ) :
    (0 ≤ v → ((floatToInt v : Int) : ℚ) ≤ v ∧ v < (floatToInt v : Int) + 1)
      ∧ (v < 0 → v ≤ ((floatToInt v : Int) : ℚ) ∧ ((floatToInt v : Int) : ℚ) < v + 1) := by
  unfold floatToInt
  constructor
  · intro h
    rw [if_pos h]
    exact ⟨Int.floor_le v, Int.lt_floor_add_one v⟩
  · intro h
    rw [if_neg (not_le.2 h)]
    exact ⟨Int.le_ceil v, Int.ceil_lt_add_one v⟩

/-- C15: for a record with numeric coordinates whose first zone resolves and
loads and whose `tst` is the number `v` (within the range of `int`), with
`Format` of the standard library as the time formatter, enrichment succeeds and
sets `isotst` to the rendering `YYYY-MM-DDTHH:MM:SSZ` of the instant `int(v)`
seconds after the epoch, where `int(v)` is `v` without its fraction (the integer
next to `v` towards zero) and the date and time of day rendered lie exactly
`int(v)` seconds after 1970-01-01T00:00:00Z; for 1700000000 that rendering is
`2023-11-14T22:13:20Z`. -/
theorem isotst_is_rfc3339_utc (libs : Libs) (user device : String) (otdata : otLocation)
    (lat lon v : ℚ) (tz0 loc : String) (rest : List String)
    (hlat : otdata "lat" = some (.num lat)) (hlon : otdata "lon" = some (.num lon))
    (hz : libs.tzGetZone lat lon = .ok (tz0 :: rest))
    (hloc : libs.timeLoadLocation tz0 = .ok loc)
    (htst : otdata "tst" = some (.num v))
    (_hrange : -(2 : ℚ) ^ 63 < v ∧ v < 2 ^ 63)
    (hfmt : libs.formatUTC = goFormatUTC) :
    (enrichOTLocationData libs user device otdata).err = none
      ∧ (enrichOTLocationData libs user device otdata).otdata "isotst"
          = some (.str (rfc3339UTC (floatToInt v)))
      ∧ (0 ≤ v → ((floatToInt v : Int) : ℚ) ≤ v ∧ v < (floatToInt v : Int) + 1)
      ∧ (v < 0 → v ≤ ((floatToInt v : Int) : ℚ) ∧ ((floatToInt v : Int) : ℚ) < v + 1)
      ∧ clockShows (utcClock (floatToInt v)) (floatToInt v)
      ∧ rfc3339UTC 1700000000 = "2023-11-14T22:13:20Z" := by
  have h := enrich_zone_tst_fields libs user device otdata lat lon v tz0 loc rest hlat hlon hz
    hloc htst
  refine ⟨h.1, ?_, (floatToInt_truncates v).1, (floatToInt_truncates v).2,
    utcClock_shows _, by decide⟩
  rw [h.2.2.2.1, hfmt, goFormatUTC_rfc3339]

/-- C15 at the spec's example record, and at the same record with `tst`
1700000000.9, whose fraction is dropped. -/
theorem isotst_is_rfc3339_utc_witness :
    ((enrichOTLocationData libsZoned "alice" "phone1" recFull).err = none
        ∧ (enrichOTLocationData libsZoned "alice" "phone1" recFull).otdata "isotst"
            = some (.str (rfc3339UTC (floatToInt 1700000000)))
        ∧ (0 ≤ (1700000000 : ℚ) → ((floatToInt 1700000000 : Int) : ℚ) ≤ 1700000000
            ∧ (1700000000 : ℚ) < (floatToInt 1700000000 : Int) + 1)
        ∧ ((1700000000 : ℚ) < 0 → (1700000000 : ℚ) ≤ ((floatToInt 1700000000 : Int) : ℚ)
            ∧ ((floatToInt 1700000000 : Int) : ℚ) < 1700000000 + 1)
        ∧ clockShows (utcClock (floatToInt 1700000000)) (floatToInt 1700000000)
        ∧ rfc3339UTC 1700000000 = "2023-11-14T22:13:20Z")
      ∧ utcClock 1700000000 = ⟨2023, 11, 14, 22, 13, 20⟩
      ∧ strAt (enrichOTLocationData libsZoned "alice" "phone1" recFull).otdata "isotst"
          = some "2023-11-14T22:13:20Z"
      ∧ floatToInt (17000000009 / 10) = 1700000000
      ∧ (enrichOTLocationData libsZoned "alice" "phone1" recFraction).otdata "isotst"
          = some (.str "2023-11-14T22:13:20Z")
      ∧ rfc3339UTC 0 = "1970-01-01T00:00:00Z"
      ∧ rfc3339UTC 951782400 = "2000-02-29T00:00:00Z"
      ∧ rfc3339UTC (-1) = "1969-12-31T23:59:59Z" := by
  have hfrac : floatToInt (17000000009 / 10) = 1700000000 := by
    unfold floatToInt
    rw [if_pos (by norm_num), Int.floor_eq_iff]
    constructor <;> norm_num
  refine ⟨isotst_is_rfc3339_utc libsZoned "alice" "phone1" recFull (377749 / 10000)
      (-1224194 / 10000) 1700000000 "Etc/UTC" "Etc/UTC" [] rfl rfl rfl rfl rfl
      (by norm_num) rfl,
    by decide, by decide, hfrac, ?_, by decide, by decide, by decide⟩
  have h := (isotst_is_rfc3339_utc libsZoned "alice" "phone1" recFraction (377749 / 10000)
      (-1224194 / 10000) (17000000009 / 10) "Etc/UTC" "Etc/UTC" [] rfl rfl rfl rfl rfl
      (by norm_num) rfl).2.1
  have hr : rfc3339UTC 1700000000 = "2023-11-14T22:13:20Z" := by decide
  rw [h, hfrac, hr]

/-- C18 (the code at the failing input): for the spec's example record, `tst`
1700000000, enrichment sets `isotst` to `2023-11-14T22:13:20Z` but `disptst` to
`2023-11-14 10:13:20`: the layout `2006-01-02 03:04:05` prints the hour on the
12-hour clock, while the same date and time of day as `isotst` would read
`2023-11-14 22:13:20`.  The record twelve hours earlier, `tst` 1699956800,
another `isotst`, gets the same `disptst`.  In general the hour field of that
layout is `hour12`, which maps the hours 10 and 22 to the same value. -/
theorem disptst_uses_twelve_hour_clock :
    strAt (enrichOTLocationData libsZoned "alice" "phone1" recFull).otdata "isotst"
        = some "2023-11-14T22:13:20Z"
      ∧ strAt (enrichOTLocationData libsZoned "alice" "phone1" recFull).otdata "disptst"
          = some "2023-11-14 10:13:20"
      ∧ displayUTC 1700000000 = "2023-11-14 22:13:20"
      ∧ strAt (enrichOTLocationData libsZoned "alice" "phone1" recEarly).otdata "isotst"
          = some "2023-11-14T10:13:20Z"
      ∧ strAt (enrichOTLocationData libsZoned "alice" "phone1" recEarly).otdata "disptst"
          = some "2023-11-14 10:13:20"
      ∧ (∀ k : Clock, formatLayout k 19 "2006-01-02 03:04:05".toList
          = appendInt k.year 4 ++ ['-'] ++ appendInt k.month 2 ++ ['-'] ++ appendInt k.day 2
            ++ [' '] ++ appendInt (hour12 k.hour) 2 ++ [':'] ++ appendInt k.minute 2 ++ [':']
            ++ appendInt k.second 2)
      ∧ hour12 22 = 10 ∧ hour12 10 = 10 := by
  refine ⟨by decide, by decide, by decide, by decide, by decide, formatLayout_display,
    by decide, by decide⟩

/-! ## Claims on the classification of errors -/

/-- C12 (the code at the failing input): a body that does not decode and a body
of another `_type` end in an `httpError` with status 400 and a message naming
the fault.  A record without coordinates and a record without `tst` in a zone
end in that kind of error wrapped by `errors.WithStack`: the returned value
still prints the message, but it has no `StatusCode()` of its own, so the
transport answers 500. -/
theorem wrapped_client_error_hides_status :
    errOf (PubEndpoint libsZoned noPubFaults 100 (some "alice") storeExample
        (requestWith "corrupt"))
        = some (.httpError 400
            "failed to decode ot json: failed to json decode: invalid character")
      ∧ errOf (PubEndpoint libsZoned noPubFaults 100 (some "alice") storeExample
          (requestWith "status"))
          = some (.httpError 400 "failed to decode ot json: unknown ot json type: \"status\"")
      ∧ (GoError.httpError 400 "failed to decode ot json: unknown ot json type: \"status\"").StatusCode
          = some 400
      ∧ errOf (PubEndpoint libsZoned noPubFaults 100 (some "alice") storeExample
          (requestWith "nocoords"))
          = some (.withStack (.httpError 400 "lat,lon missing"))
      ∧ (GoError.withStack (.httpError 400 "lat,lon missing")).Error = "lat,lon missing"
      ∧ (GoError.withStack (.httpError 400 "lat,lon missing")).StatusCode = none
      ∧ responseStatus (.withStack (.httpError 400 "lat,lon missing")) = 500
      ∧ errOf (PubEndpoint libsZoned noPubFaults 100 (some "alice") storeExample
          (requestWith "notst"))
          = some (.withStack (.httpError 400 "missing tst timestamp"))
      ∧ (GoError.withStack (.httpError 400 "missing tst timestamp")).StatusCode = none
      ∧ responseStatus (.withStack (.httpError 400 "missing tst timestamp")) = 500
      ∧ (∀ err : GoError, (GoError.withStack err).StatusCode = none) := by
  refine ⟨by decide, by decide, by decide, by decide, by decide, by decide, by decide,
    by decide, by decide, by decide, fun _ => rfl⟩

/-! ## Claims on decoding -/

theorem firstMember_reverse (fields : List (String × JVal)) (key : String)
    (hkeys : (fields.map Prod.fst).Nodup) :
    firstMember fields.reverse key = firstMember fields key := by
  induction fields with
  | nil => rfl
  | cons a t ih =>
    rw [List.map_cons, List.nodup_cons] at hkeys
    unfold firstMember at ih ⊢
    rw [List.reverse_cons, List.find?_append]
    by_cases hk : memberNamed key a = true
    · have hnone : t.reverse.find? (memberNamed key) = none := by
        rw [List.find?_eq_none]
        intro x hx hxk
        apply hkeys.1
        rw [List.mem_map]
        refine ⟨x, List.mem_reverse.1 hx, ?_⟩
        unfold memberNamed at hk hxk
        rw [beq_iff_eq] at hk
        simp only [beq_iff_eq, Bool.not_eq_true, beq_eq_false_iff_ne, ne_eq, not_not] at hxk
        rw [hk, hxk]
      rw [hnone, List.find?_cons_of_pos _ hk, List.find?_cons_of_pos _ hk]
      rfl
    · rw [List.find?_cons_of_neg _ hk, List.find?_cons_of_neg _ hk, List.find?_nil]
      have := ih hkeys.2
      cases hfind : t.reverse.find? (memberNamed key) with
      | none => rw [hfind] at this; rw [← this]; rfl
      | some x => rw [hfind] at this; rw [← this]; rfl

/-- C16 (counterexample): for the object with the members `_type: location`,
`_type: status`, `lat: 1`, in that order, the discriminator is read from the
first `_type` member and the record from the last: `decodeOTJSON` returns a
record, and the `_type` of that record is `status`, not `location`.  And for a
payload whose `_type` reads `location` but which `json.Unmarshal` rejects (as it
does for a well-formed object holding a number outside the range of `float64`),
`decodeOTJSON` returns an error and no record. -/
theorem decode_reads_type_and_record_apart :
    objectGetString fieldsTwoTypes "_type" = "location"
      ∧ strAt (objectMap fieldsTwoTypes) "_type" = some "status"
      ∧ decodedType (decodeOTJSON (libsOfObject fieldsTwoTypes) "body") = some "status"
      ∧ decodeError (decodeOTJSON (libsOfObject fieldsTwoTypes) "body") = none
      ∧ libsZoned.fastjsonGetString "corrupt" "_type" = "location"
      ∧ decodeError (decodeOTJSON libsZoned "corrupt")
          = some (.wrap (.errorf "invalid character") "failed to json decode") := by
  refine ⟨by decide, by decide, by decide, by decide, by decide, by decide⟩

/-- C16 (amended): let the payload `d` be a JSON object with the top-level
members `fields`, their names distinct, which `fastjson` reads as that object
and `json.Unmarshal` decodes into the map of those members.  If the member
`_type` is the string `location`, `decodeOTJSON` returns the record that holds
exactly the members of the payload, whether or not `lat`, `lon`, `tst` or any
other member is there; otherwise (another value, or no `_type`) it returns an
error and no record. -/
theorem decode_discriminates_on_type (libs : Libs) (d : String)
    (fields : List (String × JVal))
    (hkeys : (fields.map Prod.fst).Nodup)
    (hget : libs.fastjsonGetString d "_type" = objectGetString fields "_type")
    (hum : libs.jsonUnmarshal d = .ok (objectMap fields)) :
    (objectMap fields "_type" = some (.str "location") →
        decodeOTJSON libs d = .ok (objectMap fields))
      ∧ (objectMap fields "_type" ≠ some (.str "location") →
          ∃ e, decodeOTJSON libs d = .error e)
      ∧ (∀ key, objectMap fields key = firstMember fields key) := by
  have hall : ∀ key, objectMap fields key = firstMember fields key :=
    fun key => firstMember_reverse fields key hkeys
  refine ⟨?_, ?_, hall⟩
  · intro ht
    rw [hall] at ht
    unfold decodeOTJSON decodeOTLocationJSON
    simp only [hget, objectGetString, ht, hum, if_true]
  · intro ht
    rw [hall] at ht
    unfold decodeOTJSON
    simp only [hget, objectGetString]
    have hne : (match firstMember fields "_type" with
        | some (JVal.str s) => s
        | _ => "") ≠ "location" := by
      intro hc
      apply ht
      split at hc
      · rename_i s hs
        rw [hs, hc]
      · exact absurd hc (by decide)
    rw [if_neg hne]
    exact ⟨_, rfl⟩

/-- C16 (amended) at a location payload without coordinates and at a payload of
type `status` that has coordinates. -/
theorem decode_discriminates_on_type_witness :
    decodeOTJSON (libsOfObject fieldsLocation) "body" = .ok (objectMap fieldsLocation)
      ∧ (∃ e, decodeOTJSON (libsOfObject fieldsStatus) "body" = .error e) :=
  ⟨(decode_discriminates_on_type (libsOfObject fieldsLocation) "body" fieldsLocation
      (by decide) rfl rfl).1 rfl,
    (decode_discriminates_on_type (libsOfObject fieldsStatus) "body" fieldsStatus
      (by decide) rfl rfl).2.1 (by intro h; simp [objectMap, firstMember, memberNamed, fieldsStatus] at h)⟩

/-! ## Claims on the end of a live connection -/

theorem connLoop_next (libs : Libs) (st : ConnState) (cases : List SelectCase) :
    connLoop libs st cases = .next (connRun libs st cases) := by
  induction cases generalizing st with
  | nil => rfl
  | cons c rest ih =>
    unfold connLoop connRun
    cases c <;> simp only [connIteration, List.foldl_cons] <;> exact ih _

/-- C17 (the code at the failing input): whatever cases fire, the handler of a
connection is still inside its loop afterwards, with its channel registered and
its deferred `unsubscribe` not run; in particular on a fresh hub, after the
inbound channel of connection 1 was found closed three times in a row, the
handler has not returned, channel 1 is still in the registry and still open. -/
theorem closed_connection_never_leaves_loop (libs : Libs) (l : liveLocations) (c : Nat)
    (cases : List SelectCase) :
    wsReturned (WebsocketLastLocationEndpoint libs l c cases) = some false
      ∧ wsOut (WebsocketLastLocationEndpoint libs l c cases) = some (l.out ++ [c])
      ∧ wsClosed (WebsocketLastLocationEndpoint libs l c cases) c = some (l.chans c).closed
      ∧ wsReturned (WebsocketLastLocationEndpoint libs newLiveLocations 1
          [.inClosed, .inClosed, .inClosed]) = some false
      ∧ wsOut (WebsocketLastLocationEndpoint libs newLiveLocations 1
          [.inClosed, .inClosed, .inClosed]) = some [1]
      ∧ wsClosed (WebsocketLastLocationEndpoint libs newLiveLocations 1
          [.inClosed, .inClosed, .inClosed]) 1 = some false := by
  have h : ∀ (l : liveLocations) (c : Nat) (cases : List SelectCase),
      WebsocketLastLocationEndpoint libs l c cases
        = .ok ⟨(subscribe l c).1, connRun libs connInit cases, false⟩ := by
    intro l c cases
    unfold WebsocketLastLocationEndpoint
    simp only [connLoop_next]
  rw [h l c cases, h newLiveLocations 1 [.inClosed, .inClosed, .inClosed]]
  exact ⟨rfl, rfl, rfl, rfl, rfl, rfl⟩

/-! ## Claims on the last-location query -/

/-- C19 (the code at the failing input): with only the device filter given, the
query holds the one condition `device = ?2` and the one argument `phone1`; the
argument is bound to parameter 1, which no condition refers to, and parameter 2
is left unbound, so the condition compares with `NULL` and no report is
returned, although the store holds a report of phone1.  With both filters, or
with the user filter alone, each placeholder is bound to the value of its own
filter and the report is returned. -/
theorem device_only_filter_is_unbound :
    lastLocationQuery none (some "phone1") = ⟨[.device], ["phone1"]⟩
      ∧ LastCond.placeholder .device = some 2
      ∧ LastCond.sql .device = "device = ?2"
      ∧ boundArg (lastLocationQuery none (some "phone1")).args 2 = none
      ∧ boundArg (lastLocationQuery none (some "phone1")).args 1 = some "phone1"
      ∧ storeReports.location_reports = [⟨1, 1, "phone1", "json"⟩]
      ∧ lastLocationRows storeReports (lastLocationQuery none (some "phone1")) = []
      ∧ lastLocationQuery (some "alice") (some "phone1") = ⟨[.user, .device], ["alice", "phone1"]⟩
      ∧ boundArg (lastLocationQuery (some "alice") (some "phone1")).args 1 = some "alice"
      ∧ boundArg (lastLocationQuery (some "alice") (some "phone1")).args 2 = some "phone1"
      ∧ lastLocationRows storeReports (lastLocationQuery (some "alice") (some "phone1"))
          = [(1, "alice", "phone1", "json")]
      ∧ boundArg (lastLocationQuery (some "alice") none).args 1 = some "alice"
      ∧ lastLocationRows storeReports (lastLocationQuery (some "alice") none)
          = [(1, "alice", "phone1", "json")] := by
  refine ⟨by decide, by decide, by decide, by decide, by decide, by decide, by decide,
    by decide, by decide, by decide, by decide, by decide, by decide⟩

end Gotracks
